import Mathlib

/-!
Verification of the External Prompt Protocol (EPP) core against its
natural-language specification.

The Python sources under `src/epp/` are shallowly embedded here:

* `src/epp/crypto/signing.py`   → `EPP.create_canonical_payload`,
  `EPP.sign_envelope`, `EPP.verify_envelope_signature`
* `src/epp/models.py`           → `EPP.Payload`, `EPP.Delegation`,
  `EPP.Envelope`, `EPP.parseEnvelope`, `EPP.Receipt`
* `src/epp/policy/nonce_registry.py` → `EPP.NonceRegistry`
* `src/epp/policy/rate_limiter.py`   → `EPP.checkAndRecord`
* `src/epp/policy/trust_registry.py` → `EPP.SenderPolicy`, `EPP.TrustEntry`
* `src/epp/inbox/processor.py`  → `EPP.processEnvelope`
* `src/epp/inbox/server.py`     → `EPP.statusCodeFor`

Machine-level conventions: timestamps are modelled as integer epoch seconds
(`Int`); the code only ever compares timestamps, so the ordered structure is
all that matters.  Byte strings are `List Nat` with each element `< 256`.
Python dictionaries appear as association lists.  The Ed25519 primitive of
the `cryptography` package is not part of the repository; definitions that
need it are parameterised by an `EPP.SigScheme` record of its interface.
-/

namespace EPP

/-! ## JSON values

Python dictionaries/lists/scalars that flow through `json.dumps` are embedded
as this inductive.  Numbers are modelled as integers: every number the claims
exercise is an `int`, and serialization of `int` agrees with Python's. -/

inductive Json where
  | str (s : String)
  | num (n : Int)
  | bool (b : Bool)
  | null
  | arr (xs : List Json)
  | obj (kvs : List (String × Json))

/-! ## Canonical JSON serialization

Model of Python `json.dumps(x, separators=(",", ":"), sort_keys=True)`
(`ensure_ascii` defaults to `True`): compact separators, object keys sorted
lexicographically at every depth, characters outside the printable-ASCII
range `0x20`–`0x7e` escaped (`\uXXXX`, with the usual two-character escapes
for quote, backslash and the common control characters). -/

def hexDigitChar (n : Nat) : Char :=
  if n < 10 then Char.ofNat ('0'.toNat + n) else Char.ofNat ('a'.toNat + (n - 10))

def hex4 (n : Nat) : String :=
  String.mk [hexDigitChar (n / 4096 % 16), hexDigitChar (n / 256 % 16),
             hexDigitChar (n / 16 % 16), hexDigitChar (n % 16)]

def escChar (c : Char) : String :=
  if c = '"' then "\\\""
  else if c = '\\' then "\\\\"
  else if c = '\n' then "\\n"
  else if c = '\r' then "\\r"
  else if c = '\t' then "\\t"
  else if c = '\x08' then "\\b"
  else if c = '\x0c' then "\\f"
  else if c.toNat < 0x20 then "\\u" ++ hex4 c.toNat
  else if c.toNat ≤ 0x7e then String.singleton c
  else if c.toNat < 0x10000 then "\\u" ++ hex4 c.toNat
  else
    let v := c.toNat - 0x10000
    "\\u" ++ hex4 (0xd800 + v / 0x400) ++ "\\u" ++ hex4 (0xdc00 + v % 0x400)

def escapeJsonString (s : String) : String :=
  "\"" ++ String.join (s.toList.map escChar) ++ "\""

/-- Key order used by `sort_keys=True`: compare the key strings. -/
def keyLe {α : Type} (a b : String × α) : Prop := a.1 ≤ b.1

instance {α : Type} : DecidableRel (keyLe (α := α)) :=
  fun a b => inferInstanceAs (Decidable (a.1 ≤ b.1))

instance {α : Type} : IsTotal (String × α) keyLe := ⟨fun a b => le_total a.1 b.1⟩

instance {α : Type} : IsTrans (String × α) keyLe := ⟨fun _ _ _ => le_trans⟩

/-- Join already-serialized object members `key : value` with comma
separators. -/
def joinMembers : List (String × String) → String
  | [] => ""
  | [(k, v)] => escapeJsonString k ++ ":" ++ v
  | (k, v) :: rest => escapeJsonString k ++ ":" ++ v ++ "," ++ joinMembers rest

def joinElems : List String → String
  | [] => ""
  | [x] => x
  | x :: rest => x ++ "," ++ joinElems rest

/-! `json.dumps` serializes the values of an object in sorted-key order; the
recursion below serializes each value first and then sorts the resulting
`(key, serialized value)` pairs by key, which yields the identical string
(the serialization of a value does not depend on its position). -/

mutual

def serializeCanonical : Json → String
  | .str s => escapeJsonString s
  | .num n => toString n
  | .bool b => if b then "true" else "false"
  | .null => "null"
  | .arr xs => "[" ++ joinElems (serializeCanonicalList xs) ++ "]"
  | .obj kvs =>
      "\x7b" ++ joinMembers (List.insertionSort keyLe (serializeCanonicalPairs kvs))
        ++ "\x7d"

def serializeCanonicalList : List Json → List String
  | [] => []
  | x :: rest => serializeCanonical x :: serializeCanonicalList rest

def serializeCanonicalPairs : List (String × Json) → List (String × String)
  | [] => []
  | (k, v) :: rest => (k, serializeCanonical v) :: serializeCanonicalPairs rest

end

/-! ## Canonical signing form (src/epp/crypto/signing.py, create_canonical_payload)

The source returns `"\n".join(canonical_parts).encode("utf-8")`.  We model the
string before UTF-8 encoding; `'\n'` encodes to the single byte 0x0A, so the
joining structure is preserved exactly by the encoding. -/

def create_canonical_payload
    (version envelope_id sender recipient timestamp expires_at nonce scope : String)
    (payload : List (String × Json))
    (conversation_id : Option String := none)
    (in_reply_to : Option String := none)
    (delegation : Option (List (String × Json)) := none) : String :=
  let payload_json := serializeCanonical (Json.obj payload)
  let delegation_str :=
    match delegation with
    | some d => serializeCanonical (Json.obj d)
    | none => ""
  String.intercalate "\n"
    [version, envelope_id, sender, recipient, timestamp, expires_at, nonce, scope,
     conversation_id.getD "", in_reply_to.getD "", delegation_str, payload_json]

/-! ## Order independence of the canonical object serialization -/

theorem sorted_perm_nodupKeys_eq {α : Type} :
    ∀ {l1 l2 : List (String × α)}, l1.Perm l2 →
      l1.Sorted keyLe → l2.Sorted keyLe → (l1.map Prod.fst).Nodup → l1 = l2 := by
  intro l1
  induction l1 with
  | nil => intro l2 hp _ _ _; exact (hp.symm.eq_nil).symm
  | cons a t1 ih =>
    intro l2 hp hs1 hs2 hnd
    cases l2 with
    | nil => simpa using hp.eq_nil
    | cons b t2 =>
      by_cases hab : a = b
      · subst hab
        have ht : t1.Perm t2 := hp.cons_inv
        have := ih ht (List.sorted_cons.mp hs1).2 (List.sorted_cons.mp hs2).2
          (by simpa using (List.nodup_cons.mp (by simpa using hnd)).2)
        rw [this]
      · exfalso
        have ha2 : a ∈ b :: t2 := hp.mem_iff.mp (List.mem_cons_self a t1)
        have hat2 : a ∈ t2 := by
          cases List.mem_cons.mp ha2 with
          | inl h => exact absurd h hab
          | inr h => exact h
        have hb1 : b ∈ a :: t1 := hp.symm.mem_iff.mp (List.mem_cons_self b t2)
        have hbt1 : b ∈ t1 := by
          cases List.mem_cons.mp hb1 with
          | inl h => exact absurd h.symm hab
          | inr h => exact h
        have hba : keyLe b a := (List.sorted_cons.mp hs2).1 a hat2
        have hab' : keyLe a b := (List.sorted_cons.mp hs1).1 b hbt1
        have hkey : a.1 = b.1 := le_antisymm hab' hba
        have : a.1 ∉ t1.map Prod.fst := (List.nodup_cons.mp (by simpa using hnd)).1
        exact this (by rw [hkey]; exact List.mem_map_of_mem Prod.fst hbt1)

theorem insertionSort_perm_nodupKeys_eq {α : Type} {l1 l2 : List (String × α)}
    (hp : l1.Perm l2) (hnd : (l1.map Prod.fst).Nodup) :
    List.insertionSort keyLe l1 = List.insertionSort keyLe l2 := by
  have hperm : (List.insertionSort keyLe l1).Perm (List.insertionSort keyLe l2) :=
    ((List.perm_insertionSort keyLe l1).trans hp).trans
      (List.perm_insertionSort keyLe l2).symm
  refine sorted_perm_nodupKeys_eq hperm ?_ ?_ ?_
  · exact List.sorted_insertionSort keyLe l1
  · exact List.sorted_insertionSort keyLe l2
  · exact ((List.perm_insertionSort keyLe l1).map Prod.fst).nodup_iff.mpr hnd

/-! ## Base64 (model of Python `base64.b64encode` / `base64.b64decode`)

The standard alphabet with `=` padding.  `b64decode` is modelled on
well-formed inputs (alphabet characters in groups of four with standard
padding); inputs outside this set are mapped to `none`, standing for the
exception path.  Bytes are naturals below 256. -/

def b64Alphabet : List Char :=
  "ABCDEFGHIJKLMNOPQRSTUVWXYZabcdefghijklmnopqrstuvwxyz0123456789+/".toList

def b64CharOf (n : Nat) : Char := b64Alphabet.getD n '?'

def b64ValOf (c : Char) : Option Nat := b64Alphabet.indexOf? c

def b64EncodeChunks : List Nat → List Char
  | [] => []
  | [b1] => [b64CharOf (b1 / 4), b64CharOf (b1 % 4 * 16), '=', '=']
  | [b1, b2] =>
      [b64CharOf (b1 / 4), b64CharOf (b1 % 4 * 16 + b2 / 16), b64CharOf (b2 % 16 * 4), '=']
  | b1 :: b2 :: b3 :: rest =>
      b64CharOf (b1 / 4) :: b64CharOf (b1 % 4 * 16 + b2 / 16) ::
      b64CharOf (b2 % 16 * 4 + b3 / 64) :: b64CharOf (b3 % 64) :: b64EncodeChunks rest

def b64encode (bs : List Nat) : String := String.mk (b64EncodeChunks bs)

def b64DecodeChunks : List Char → Option (List Nat)
  | [] => some []
  | c1 :: c2 :: c3 :: c4 :: rest =>
      match b64ValOf c1, b64ValOf c2 with
      | some v1, some v2 =>
        if c3 = '=' then
          if c4 = '=' ∧ rest = [] then some [v1 * 4 + v2 / 16] else none
        else
          match b64ValOf c3 with
          | some v3 =>
            if c4 = '=' then
              if rest = [] then some [v1 * 4 + v2 / 16, v2 % 16 * 16 + v3 / 4] else none
            else
              match b64ValOf c4 with
              | some v4 =>
                  (b64DecodeChunks rest).map
                    (fun tl => (v1 * 4 + v2 / 16) :: (v2 % 16 * 16 + v3 / 4) ::
                               (v3 % 4 * 64 + v4) :: tl)
              | none => none
          | none => none
      | _, _ => none
  | _ => none

def b64decode (s : String) : Option (List Nat) := b64DecodeChunks s.toList

theorem b64ValOf_b64CharOf : ∀ n, n < 64 → b64ValOf (b64CharOf n) = some n := by decide

theorem b64CharOf_ne_eq : ∀ n, n < 64 → b64CharOf n ≠ '=' := by decide

theorem b64_decode_encode :
    ∀ bs : List Nat, (∀ b ∈ bs, b < 256) → b64decode (b64encode bs) = some bs := by
  intro bs
  unfold b64decode b64encode
  change (∀ b ∈ bs, b < 256) → b64DecodeChunks (b64EncodeChunks bs) = some bs
  induction bs using b64EncodeChunks.induct with
  | case1 => intro _; rfl
  | case2 b1 =>
      intro h
      have hb1 : b1 < 256 := h b1 (by simp)
      have e1 := b64ValOf_b64CharOf (b1 / 4) (by omega)
      have e2 := b64ValOf_b64CharOf (b1 % 4 * 16) (by omega)
      simp only [b64EncodeChunks, b64DecodeChunks, e1, e2]
      simp
      omega
  | case3 b1 b2 =>
      intro h
      have hb1 : b1 < 256 := h b1 (by simp)
      have hb2 : b2 < 256 := h b2 (by simp)
      have e1 := b64ValOf_b64CharOf (b1 / 4) (by omega)
      have e2 := b64ValOf_b64CharOf (b1 % 4 * 16 + b2 / 16) (by omega)
      have e3 := b64ValOf_b64CharOf (b2 % 16 * 4) (by omega)
      have n3 := b64CharOf_ne_eq (b2 % 16 * 4) (by omega)
      simp only [b64EncodeChunks, b64DecodeChunks, e1, e2, e3, if_neg n3]
      simp
      omega
  | case4 b1 b2 b3 rest ih =>
      intro h
      have hb1 : b1 < 256 := h b1 (by simp)
      have hb2 : b2 < 256 := h b2 (by simp)
      have hb3 : b3 < 256 := h b3 (by simp)
      have e1 := b64ValOf_b64CharOf (b1 / 4) (by omega)
      have e2 := b64ValOf_b64CharOf (b1 % 4 * 16 + b2 / 16) (by omega)
      have e3 := b64ValOf_b64CharOf (b2 % 16 * 4 + b3 / 64) (by omega)
      have e4 := b64ValOf_b64CharOf (b3 % 64) (by omega)
      have n3 := b64CharOf_ne_eq (b2 % 16 * 4 + b3 / 64) (by omega)
      have n4 := b64CharOf_ne_eq (b3 % 64) (by omega)
      have ih' := ih (fun b hb => h b (by simp [hb]))
      simp only [b64EncodeChunks, b64DecodeChunks, e1, e2, e3, e4, if_neg n3, if_neg n4, ih',
        Option.map_some]
      simp
      omega

theorem serializeCanonicalPairs_eq_map (l : List (String × Json)) :
    serializeCanonicalPairs l = l.map (fun kv => (kv.1, serializeCanonical kv.2)) := by
  induction l with
  | nil => rfl
  | cons kv rest ih =>
      obtain ⟨k, v⟩ := kv
      simp [serializeCanonicalPairs, ih]

theorem serializeCanonical_obj_perm {l1 l2 : List (String × Json)}
    (hp : l1.Perm l2) (hnd : (l1.map Prod.fst).Nodup) :
    serializeCanonical (Json.obj l1) = serializeCanonical (Json.obj l2) := by
  have hpairs : (serializeCanonicalPairs l1).Perm (serializeCanonicalPairs l2) := by
    rw [serializeCanonicalPairs_eq_map, serializeCanonicalPairs_eq_map]
    exact hp.map _
  have hndp : ((serializeCanonicalPairs l1).map Prod.fst).Nodup := by
    rw [serializeCanonicalPairs_eq_map]
    simpa [Function.comp, List.map_map] using hnd
  have hs := insertionSort_perm_nodupKeys_eq hpairs hndp
  simp only [serializeCanonical, hs]

/-- C3: for every combination of envelope fields, `create_canonical_payload`
is exactly the twelve lines (version, envelope_id, sender, recipient,
timestamp, expires_at, nonce, scope, conversation_id-or-empty,
in_reply_to-or-empty, delegation compact JSON or empty, payload compact JSON)
joined by single `'\n'` characters (the byte 0x0A under UTF-8) with no
trailing newline, and the result is independent of the key order of the
payload mapping supplied by the caller: the right-hand side serializes the
permuted mapping `payload'`. -/
theorem canonical_payload_twelve_lines_order_independent
    (version envelope_id sender recipient timestamp expires_at nonce scope : String)
    (conversation_id in_reply_to : Option String)
    (delegation : Option (List (String × Json)))
    (payload payload' : List (String × Json))
    (hperm : payload.Perm payload') (hnd : (payload.map Prod.fst).Nodup) :
    create_canonical_payload version envelope_id sender recipient timestamp expires_at
        nonce scope payload conversation_id in_reply_to delegation
      = String.intercalate "\n"
          [version, envelope_id, sender, recipient, timestamp, expires_at, nonce, scope,
           conversation_id.getD "", in_reply_to.getD "",
           (match delegation with
            | some d => serializeCanonical (Json.obj d)
            | none => ""),
           serializeCanonical (Json.obj payload')] := by
  have h1 : create_canonical_payload version envelope_id sender recipient timestamp
      expires_at nonce scope payload conversation_id in_reply_to delegation
      = String.intercalate "\n"
          [version, envelope_id, sender, recipient, timestamp, expires_at, nonce, scope,
           conversation_id.getD "", in_reply_to.getD "",
           (match delegation with
            | some d => serializeCanonical (Json.obj d)
            | none => ""),
           serializeCanonical (Json.obj payload)] := rfl
  rw [h1, serializeCanonical_obj_perm hperm hnd]

/-- Witness for C3, at the spec's own example `{a:1,b:2}` vs `{b:2,a:1}`. -/
theorem canonical_payload_twelve_lines_order_independent_witness :
    create_canonical_payload "1" "eid" "snd" "rcp" "ts" "exp" "non" "scp"
        [("a", Json.num 1), ("b", Json.num 2)] none none none
      = String.intercalate "\n"
          ["1", "eid", "snd", "rcp", "ts", "exp", "non", "scp", "", "", "",
           serializeCanonical (Json.obj [("b", Json.num 2), ("a", Json.num 1)])] :=
  canonical_payload_twelve_lines_order_independent "1" "eid" "snd" "rcp" "ts" "exp"
    "non" "scp" none none none
    [("a", Json.num 1), ("b", Json.num 2)] [("b", Json.num 2), ("a", Json.num 1)]
    (List.Perm.swap ("b", Json.num 2) ("a", Json.num 1) []) (by decide)

/-! ## Signature scheme interface (the Ed25519 primitive of the external
`cryptography` package, referenced by `src/epp/crypto/keys.py`)

`sign` maps private-key bytes and a message (the string whose UTF-8 bytes are
signed) to signature bytes; `verify` takes public-key bytes, signature bytes
and the message, returning a boolean (the source converts the library's
`InvalidSignature` exception to `False`); `pubOf` maps a private key to its
public key.  The library guarantees - signatures verify under the matching
public key, and signatures are bytes - enter theorems as hypotheses. -/

structure SigScheme where
  sign : List Nat → String → List Nat
  verify : List Nat → List Nat → String → Bool
  pubOf : List Nat → List Nat

def hexVal (c : Char) : Option Nat :=
  if '0' ≤ c ∧ c ≤ '9' then some (c.toNat - '0'.toNat)
  else if 'a' ≤ c ∧ c ≤ 'f' then some (c.toNat - 'a'.toNat + 10)
  else if 'A' ≤ c ∧ c ≤ 'F' then some (c.toNat - 'A'.toNat + 10)
  else none

/-- Structural model of Python `str.lower()` on the ASCII range (the only
range the protocol lowercases: hex strings). -/
def charLower (c : Char) : Char :=
  if 'A' ≤ c ∧ c ≤ 'Z' then Char.ofNat (c.toNat + 32) else c

def strLower (s : String) : String := String.mk (s.toList.map charLower)

def bytesFromHex : List Char → Option (List Nat)
  | [] => some []
  | c1 :: c2 :: rest =>
      match hexVal c1, hexVal c2, bytesFromHex rest with
      | some hi, some lo, some bs => some ((hi * 16 + lo) :: bs)
      | _, _, _ => none
  | [_] => none

/-- PublicKey.from_hex (src/epp/crypto/keys.py): `bytes.fromhex` then
`Ed25519PublicKey.from_public_bytes`, which requires exactly 32 bytes.
`none` models the exception path. -/
def publicKeyFromHex (s : String) : Option (List Nat) :=
  match bytesFromHex s.toList with
  | some bs => if bs.length = 32 then some bs else none
  | none => none

/-! ## sign_envelope / verify_envelope_signature (src/epp/crypto/signing.py) -/

def sign_envelope (S : SigScheme) (key_pair : List Nat)
    (version envelope_id sender recipient timestamp expires_at nonce scope : String)
    (payload : List (String × Json))
    (conversation_id : Option String := none)
    (in_reply_to : Option String := none)
    (delegation : Option (List (String × Json)) := none) : String :=
  b64encode (S.sign key_pair
    (create_canonical_payload version envelope_id sender recipient timestamp expires_at
      nonce scope payload conversation_id in_reply_to delegation))

def verify_envelope_signature (S : SigScheme) (public_key : List Nat)
    (signature_b64 : String)
    (version envelope_id sender recipient timestamp expires_at nonce scope : String)
    (payload : List (String × Json))
    (conversation_id : Option String := none)
    (in_reply_to : Option String := none)
    (delegation : Option (List (String × Json)) := none) : Bool :=
  match b64decode signature_b64 with
  | some signature =>
      S.verify public_key signature
        (create_canonical_payload version envelope_id sender recipient timestamp expires_at
          nonce scope payload conversation_id in_reply_to delegation)
  | none => false

/-- C4: for every well-formed envelope field tuple and every keypair of a
signature scheme with the Ed25519 interface guarantees (signatures are bytes;
a signature made with a private key verifies under the matching public key),
verifying the signature produced by `sign_envelope` over the same field tuple
with the same key's public key returns `true`. -/
theorem sign_then_verify_roundtrip (S : SigScheme)
    (hbytes : ∀ k m, ∀ b ∈ S.sign k m, b < 256)
    (hcorrect : ∀ k m, S.verify (S.pubOf k) (S.sign k m) m = true)
    (k : List Nat)
    (version envelope_id sender recipient timestamp expires_at nonce scope : String)
    (payload : List (String × Json))
    (conversation_id in_reply_to : Option String)
    (delegation : Option (List (String × Json))) :
    verify_envelope_signature S (S.pubOf k)
        (sign_envelope S k version envelope_id sender recipient timestamp expires_at
          nonce scope payload conversation_id in_reply_to delegation)
        version envelope_id sender recipient timestamp expires_at nonce scope payload
        conversation_id in_reply_to delegation = true := by
  unfold verify_envelope_signature sign_envelope
  rw [b64_decode_encode _ (hbytes _ _)]
  exact hcorrect _ _

/-- A concrete scheme with the Ed25519 interface shape, used to witness the
round-trip theorem. -/
def concatScheme : SigScheme where
  sign k m := (k ++ m.toList.map Char.toNat).map (· % 256)
  verify p s m := s == (p ++ m.toList.map Char.toNat).map (· % 256)
  pubOf k := k

/-- Witness for C4 at a concrete keypair and envelope field tuple. -/
theorem sign_then_verify_roundtrip_witness :
    verify_envelope_signature concatScheme (concatScheme.pubOf [1, 2])
        (sign_envelope concatScheme [1, 2] "1" "eid" "snd" "rcp" "ts" "exp" "non" "scp"
          [("prompt", Json.str "Hello")] none none none)
        "1" "eid" "snd" "rcp" "ts" "exp" "non" "scp" [("prompt", Json.str "Hello")]
        none none none = true :=
  sign_then_verify_roundtrip concatScheme
    (by
      intro k m b hb
      simp only [concatScheme, List.mem_map] at hb
      obtain ⟨a, _, rfl⟩ := hb
      exact Nat.mod_lt _ (by omega))
    (by intro k m; simp [concatScheme])
    [1, 2] "1" "eid" "snd" "rcp" "ts" "exp" "non" "scp"
    [("prompt", Json.str "Hello")] none none none

/-! ## Stdlib leaf functions used by the validators

These model Python standard-library calls (not repository code) on the input
shapes the protocol uses; `none` stands for a raised exception. -/

def digitVal (c : Char) : Option Nat :=
  if c.isDigit then some (c.toNat - '0'.toNat) else none

/-- Days since 1970-01-01 of a proleptic-Gregorian civil date (the standard
civil-from-days construction). -/
def daysFromCivil (y : Int) (m d : Nat) : Int :=
  let y2 : Int := if m ≤ 2 then y - 1 else y
  let era : Int := (if 0 ≤ y2 then y2 else y2 - 399) / 400
  let yoe : Int := y2 - era * 400
  let mp : Int := ((m : Int) + 9) % 12
  let doy : Int := (153 * mp + 2) / 5 + (d : Int) - 1
  let doe : Int := yoe * 365 + yoe / 4 - yoe / 100 + doy
  era * 146097 + doe - 719468

def epochOfDigits : List Nat → Option Int
  | [a, b, c, d, e, f, g, h, i, j, k, l, m, n] =>
      let year := a * 1000 + b * 100 + c * 10 + d
      let month := e * 10 + f
      let day := g * 10 + h
      let hour := i * 10 + j
      let minute := k * 10 + l
      let second := m * 10 + n
      if 1 ≤ month ∧ month ≤ 12 ∧ 1 ≤ day ∧ day ≤ 31 ∧ hour ≤ 23 ∧ minute ≤ 59 ∧ second ≤ 59
      then
        some (daysFromCivil (year : Int) month day * 86400
              + (hour : Int) * 3600 + (minute : Int) * 60 + (second : Int))
      else none
  | _ => none

def isoCoreEpoch (y1 y2 y3 y4 m1 m2 d1 d2 h1 h2 n1 n2 s1 s2 : Char) : Option Int :=
  match [y1, y2, y3, y4, m1, m2, d1, d2, h1, h2, n1, n2, s1, s2].mapM digitVal with
  | some ds => epochOfDigits ds
  | none => none

/-- Model of `datetime.fromisoformat` restricted to the UTC extended form the
protocol uses: `YYYY-MM-DDTHH:MM:SS`, optionally followed by the offset
`+00:00`.  The result is the epoch second; `none` models `ValueError`.  The
stdlib accepts further shapes (fractional seconds, other offsets, date-only),
which are outside this embedding. -/
def fromIsoUTC (s : String) : Option Int :=
  match s.toList with
  | [y1, y2, y3, y4, '-', m1, m2, '-', d1, d2, 'T', h1, h2, ':', n1, n2, ':', s1, s2] =>
      isoCoreEpoch y1 y2 y3 y4 m1 m2 d1 d2 h1 h2 n1 n2 s1 s2
  | [y1, y2, y3, y4, '-', m1, m2, '-', d1, d2, 'T', h1, h2, ':', n1, n2, ':', s1, s2,
     '+', '0', '0', ':', '0', '0'] =>
      isoCoreEpoch y1 y2 y3 y4 m1 m2 d1 d2 h1 h2 n1 n2 s1 s2
  | _ => none

/-- Structural model of `v.replace("Z", "+00:00")` on the character list:
every occurrence of `'Z'` becomes `+00:00`. -/
def replaceZ : List Char → List Char
  | [] => []
  | 'Z' :: rest => '+' :: '0' :: '0' :: ':' :: '0' :: '0' :: replaceZ rest
  | c :: rest => c :: replaceZ rest

/-- Every call site first does `v.replace("Z", "+00:00")` and then parses. -/
def isoParseZ (s : String) : Option Int := fromIsoUTC (String.mk (replaceZ s.toList))

/-- Model of `uuid.UUID(v)` on the canonical hyphenated 8-4-4-4-12 textual
form (`true` = parses).  The stdlib also accepts some other spellings
(unhyphenated, urn prefix, braces), outside this embedding. -/
def isUuid (s : String) : Bool :=
  let l := s.toList
  l.length == 36 && (List.range 36).all (fun i =>
    if i = 8 ∨ i = 13 ∨ i = 18 ∨ i = 23 then l.getD i ' ' == '-'
    else (hexVal (l.getD i ' ')).isSome)

/-- Strip the single trailing newline that Python's `re.match(r"^...$", s)`
tolerates: `$` also matches just before a final `'\n'`. -/
def reDollarBody (s : String) : String :=
  match s.toList.getLast? with
  | some '\n' => String.mk s.toList.dropLast
  | _ => s

/-- Model of `re.match(r"^[0-9a-fA-F]{64}$", v) is not None`. -/
def matchesHex64 (s : String) : Bool :=
  let b := reDollarBody s
  b.length == 64 && b.toList.all (fun c => (hexVal c).isSome)

/-- Model of `re.match(r"^[a-zA-Z0-9\-]+$", v) is not None` (used for both
`scope` and `payload_type`). -/
def matchesAlnumHyphenRe (s : String) : Bool :=
  let b := reDollarBody s
  b.length != 0 && b.toList.all (fun c => c.isAlphanum || c == '-')

/-! ## Data model (src/epp/models.py)

The optional v1.1 extension fields `integrity` and `capabilities` are not
modelled: no claim concerns them, and for envelopes without them they only
contribute two constant `null` members to `model_dump_json`. -/

structure Payload where
  prompt : String
  context : Option (List (String × Json)) := none
  metadata : Option (List (String × Json)) := none
  payload_type : Option String := none

structure Delegation where
  on_behalf_of : String
  authorization : Option String := none

/-- Integrity (src/epp/crypto/integrity.py): content-integrity hash, fields
in declaration order (`alg`, `hash`). -/
structure Integrity where
  alg : String := "sha256"
  hash : String

/-- FilesystemCapabilities (src/epp/capabilities.py). -/
structure FilesystemCapabilities where
  read : List String := []
  write : List String := []

/-- NetworkCapabilities (src/epp/capabilities.py). -/
structure NetworkCapabilities where
  domains : List String := []
  protocols : List String := []
  ports : List Int := []

/-- Capabilities (src/epp/capabilities.py), fields in declaration order. -/
structure Capabilities where
  filesystem : Option FilesystemCapabilities := none
  network : Option NetworkCapabilities := none
  actions : List String := []
  data_access : List String := []
  custom : Option (List (String × Json)) := none

structure Envelope where
  version : String
  envelope_id : String
  sender : String
  recipient : String
  timestamp : String
  expires_at : String
  nonce : String
  scope : String
  payload : Payload
  signature : String
  conversation_id : Option String := none
  in_reply_to : Option String := none
  delegation : Option Delegation := none
  integrity : Option Integrity := none
  capabilities : Option Capabilities := none

/-- `payload.model_dump(exclude_none=True)`: members in field order, absent
optionals omitted. -/
def Payload.dump_exclude_none (p : Payload) : List (String × Json) :=
  [("prompt", Json.str p.prompt)]
  ++ (match p.context with | some c => [("context", Json.obj c)] | none => [])
  ++ (match p.metadata with | some m => [("metadata", Json.obj m)] | none => [])
  ++ (match p.payload_type with | some t => [("payload_type", Json.str t)] | none => [])

/-- `delegation.model_dump()`: both members, `None` as `null`. -/
def Delegation.dump (d : Delegation) : List (String × Json) :=
  [("on_behalf_of", Json.str d.on_behalf_of),
   ("authorization", match d.authorization with | some a => Json.str a | none => Json.null)]

/-! ## Plain (non-canonical) JSON serialization, for `model_dump_json`

pydantic's `model_dump_json` emits compact JSON in field-declaration order
without sorting and without `\uXXXX`-escaping non-ASCII characters. -/

def escCharPlain (c : Char) : String :=
  if c = '"' then "\\\""
  else if c = '\\' then "\\\\"
  else if c = '\n' then "\\n"
  else if c = '\r' then "\\r"
  else if c = '\t' then "\\t"
  else if c = '\x08' then "\\b"
  else if c = '\x0c' then "\\f"
  else if c.toNat < 0x20 then "\\u" ++ hex4 c.toNat
  else String.singleton c

def escapeJsonStringPlain (s : String) : String :=
  "\"" ++ String.join (s.toList.map escCharPlain) ++ "\""

def joinMembersPlain : List (String × String) → String
  | [] => ""
  | [(k, v)] => escapeJsonStringPlain k ++ ":" ++ v
  | (k, v) :: rest => escapeJsonStringPlain k ++ ":" ++ v ++ "," ++ joinMembersPlain rest

mutual

def serializePlain : Json → String
  | .str s => escapeJsonStringPlain s
  | .num n => toString n
  | .bool b => if b then "true" else "false"
  | .null => "null"
  | .arr xs => "[" ++ joinElems (serializePlainList xs) ++ "]"
  | .obj kvs => "\x7b" ++ joinMembersPlain (serializePlainPairs kvs) ++ "\x7d"

def serializePlainList : List Json → List String
  | [] => []
  | x :: rest => serializePlain x :: serializePlainList rest

def serializePlainPairs : List (String × Json) → List (String × String)
  | [] => []
  | (k, v) :: rest => (k, serializePlain v) :: serializePlainPairs rest

end

def optStrJson : Option String → Json
  | some s => Json.str s
  | none => Json.null

def Payload.dumpFull (p : Payload) : Json :=
  Json.obj
    [("prompt", Json.str p.prompt),
     ("context", match p.context with | some c => Json.obj c | none => Json.null),
     ("metadata", match p.metadata with | some m => Json.obj m | none => Json.null),
     ("payload_type", optStrJson p.payload_type)]

def Delegation.dumpFull (d : Delegation) : Json :=
  Json.obj
    [("on_behalf_of", Json.str d.on_behalf_of),
     ("authorization", optStrJson d.authorization)]

def Integrity.dumpFull (i : Integrity) : Json :=
  Json.obj [("alg", Json.str i.alg), ("hash", Json.str i.hash)]

def FilesystemCapabilities.dumpFull (f : FilesystemCapabilities) : Json :=
  Json.obj
    [("read", Json.arr (f.read.map Json.str)),
     ("write", Json.arr (f.write.map Json.str))]

def NetworkCapabilities.dumpFull (n : NetworkCapabilities) : Json :=
  Json.obj
    [("domains", Json.arr (n.domains.map Json.str)),
     ("protocols", Json.arr (n.protocols.map Json.str)),
     ("ports", Json.arr (n.ports.map Json.num))]

def Capabilities.dumpFull (c : Capabilities) : Json :=
  Json.obj
    [("filesystem",
        match c.filesystem with | some f => f.dumpFull | none => Json.null),
     ("network", match c.network with | some n => n.dumpFull | none => Json.null),
     ("actions", Json.arr (c.actions.map Json.str)),
     ("data_access", Json.arr (c.data_access.map Json.str)),
     ("custom", match c.custom with | some m => Json.obj m | none => Json.null)]

def Envelope.dumpJsonValue (e : Envelope) : Json :=
  Json.obj
    [("version", Json.str e.version),
     ("envelope_id", Json.str e.envelope_id),
     ("sender", Json.str e.sender),
     ("recipient", Json.str e.recipient),
     ("timestamp", Json.str e.timestamp),
     ("expires_at", Json.str e.expires_at),
     ("nonce", Json.str e.nonce),
     ("scope", Json.str e.scope),
     ("payload", e.payload.dumpFull),
     ("signature", Json.str e.signature),
     ("conversation_id", optStrJson e.conversation_id),
     ("in_reply_to", optStrJson e.in_reply_to),
     ("delegation", match e.delegation with | some d => d.dumpFull | none => Json.null),
     ("integrity", match e.integrity with | some i => i.dumpFull | none => Json.null),
     ("capabilities",
        match e.capabilities with | some c => c.dumpFull | none => Json.null)]

/-- Envelope.size_bytes: `len(self.model_dump_json().encode("utf-8"))` — the
byte length of the RE-serialized envelope, not of the form received. -/
def Envelope.size_bytes (e : Envelope) : Nat :=
  (serializePlain e.dumpJsonValue).utf8ByteSize

/-- Envelope.is_expired: `datetime.now(...) > expires_dt`.  For envelopes
produced by the validator the timestamp re-parse cannot fail; the `none`
branch is unreachable there. -/
def Envelope.is_expired (e : Envelope) (now : Int) : Bool :=
  match isoParseZ e.expires_at with
  | some t => decide (t < now)
  | none => false

/-! ## Raw (pre-validation) envelope input

`process_envelope` receives a Python dictionary.  We represent the inputs the
claims range over as records of already-typed-or-absent fields: a missing
key is `none`.  (Inputs whose values have the wrong runtime type fail
validation in the source just like missing ones; they are outside this
embedding.)  pydantic ignores unknown keys. -/

structure RawPayload where
  prompt : Option String := none
  context : Option (List (String × Json)) := none
  metadata : Option (List (String × Json)) := none
  payload_type : Option String := none

structure RawDelegation where
  on_behalf_of : Option String := none
  authorization : Option String := none

structure RawEnvelope where
  version : Option String := none
  envelope_id : Option String := none
  sender : Option String := none
  recipient : Option String := none
  timestamp : Option String := none
  expires_at : Option String := none
  nonce : Option String := none
  scope : Option String := none
  payload : Option RawPayload := none
  signature : Option String := none
  conversation_id : Option String := none
  in_reply_to : Option String := none
  delegation : Option RawDelegation := none

/-- `prompt.strip() == ""` in Python terms: every character is whitespace
(`str.strip`'s default set on the ASCII range). -/
def pyStripEmpty (s : String) : Bool :=
  s.toList.all (fun c =>
    c = ' ' ∨ c = '\t' ∨ c = '\n' ∨ c = '\r' ∨ c = '\x0b' ∨ c = '\x0c')

def reqField (o : Option String) (name : String) : Except String String :=
  match o with
  | some v => .ok v
  | none => .error (name ++ ": Field required")

/-- Payload validation (src/epp/models.py, class Payload): `prompt` must be
non-empty after stripping whitespace (this subsumes `min_length=1`);
`payload_type`, when present, must match `^[a-zA-Z0-9\-]+$`. -/
def parsePayload (rp : RawPayload) : Except String Payload := do
  let prompt ← reqField rp.prompt "payload.prompt"
  if pyStripEmpty prompt then
    throw "Prompt cannot be empty or whitespace-only"
  match rp.payload_type with
  | some t =>
      if matchesAlnumHyphenRe t then pure ()
      else throw "payload_type must contain only alphanumeric characters and hyphens"
  | none => pure ()
  pure { prompt := prompt, context := rp.context, metadata := rp.metadata,
         payload_type := rp.payload_type }

/-- Delegation validation (src/epp/models.py, class Delegation):
`on_behalf_of` must be 64 hex characters and is stored lowercased. -/
def parseDelegation (rd : RawDelegation) : Except String Delegation := do
  let obo ← reqField rd.on_behalf_of "delegation.on_behalf_of"
  if matchesHex64 obo then
    pure { on_behalf_of := strLower obo, authorization := rd.authorization }
  else throw "on_behalf_of must be 64 hexadecimal characters (32 bytes)"

def ensure (c : Bool) (msg : String) : Except String Unit :=
  if c then .ok () else .error msg

def isoField (v : String) : Except String Int :=
  match isoParseZ v with
  | some t => .ok t
  | none => .error ("Invalid ISO-8601 timestamp: " ++ v)

/-- `nonce` must base64-decode to at least 16 bytes. -/
def nonceCheck (nonce : String) : Except String Unit :=
  match b64decode nonce with
  | some bs => if bs.length < 16 then .error "Nonce must be at least 16 bytes" else .ok ()
  | none => .error "Invalid base64 nonce"

/-- `signature` must base64-decode. -/
def signatureCheck (signature : String) : Except String Unit :=
  match b64decode signature with
  | some _ => .ok ()
  | none => .error "Invalid base64 signature"

def reqPayload (o : Option RawPayload) : Except String RawPayload :=
  match o with
  | some p => .ok p
  | none => .error "payload: Field required"

def parseOptDelegation (o : Option RawDelegation) : Except String (Option Delegation) :=
  match o with
  | some d => (parseDelegation d).map some
  | none => .ok none

def optUuidCheck (v : Option String) (name : String) : Except String Unit :=
  match v with
  | some u => ensure (isUuid u) (name ++ " must be a valid UUID: " ++ u)
  | none => .ok ()

/-- Envelope validation (src/epp/models.py, class Envelope): field validators
plus the `expires_at > timestamp` model validator.  The source collects
pydantic errors into one `ValidationError`; only success vs failure (and the
resulting typed envelope) is observable downstream, so errors short-circuit
here.  `sender`/`recipient`/`on_behalf_of` are stored lowercased.  The
`version` pattern `"^1$"` is checked by pydantic with Rust-regex semantics:
the whole string must be exactly `"1"`. -/
def parseEnvelope (raw : RawEnvelope) : Except String Envelope := do
  let version ← reqField raw.version "version"
  let envelope_id ← reqField raw.envelope_id "envelope_id"
  let sender ← reqField raw.sender "sender"
  let recipient ← reqField raw.recipient "recipient"
  let timestamp ← reqField raw.timestamp "timestamp"
  let expires_at ← reqField raw.expires_at "expires_at"
  let nonce ← reqField raw.nonce "nonce"
  let scope ← reqField raw.scope "scope"
  let rawp ← reqPayload raw.payload
  let signature ← reqField raw.signature "signature"
  let _ ← ensure (version == "1") "version: string should match pattern"
  let _ ← ensure (isUuid envelope_id) ("envelope_id must be a valid UUID: " ++ envelope_id)
  let _ ← ensure (matchesHex64 sender)
    "Public key must be 64 hexadecimal characters (32 bytes)"
  let _ ← ensure (matchesHex64 recipient)
    "Public key must be 64 hexadecimal characters (32 bytes)"
  let tsEpoch ← isoField timestamp
  let expEpoch ← isoField expires_at
  let _ ← nonceCheck nonce
  let _ ← signatureCheck signature
  let _ ← ensure (matchesAlnumHyphenRe scope)
    ("Scope must contain only alphanumeric characters and hyphens: " ++ scope)
  let _ ← optUuidCheck raw.conversation_id "conversation_id"
  let _ ← optUuidCheck raw.in_reply_to "in_reply_to"
  let payload ← parsePayload rawp
  let delegation ← parseOptDelegation raw.delegation
  let _ ← ensure (!decide (expEpoch ≤ tsEpoch)) "expires_at must be after timestamp"
  Except.ok { version := version, envelope_id := envelope_id, sender := strLower sender,
              recipient := strLower recipient, timestamp := timestamp,
              expires_at := expires_at, nonce := nonce, scope := scope,
              payload := payload, signature := signature,
              conversation_id := raw.conversation_id, in_reply_to := raw.in_reply_to,
              delegation := delegation }

/-! ## Trust registry (src/epp/policy/trust_registry.py) -/

structure RateLimit where
  max_per_hour : Option Nat := none
  max_per_day : Option Nat := none

structure SenderPolicy where
  allowed_scopes : List String := []
  max_envelope_size : Nat := 10 * 1024 * 1024
  rate_limit : RateLimit := {}

def SenderPolicy.allows_scope (p : SenderPolicy) (scope : String) : Bool :=
  p.allowed_scopes.contains "*" || p.allowed_scopes.contains scope

def SenderPolicy.allows_size (p : SenderPolicy) (size_bytes : Nat) : Bool :=
  size_bytes ≤ p.max_envelope_size

structure TrustEntry where
  public_key : String
  name : String
  added_at : String
  policy : SenderPolicy := {}

/-- The in-memory trust store: a mapping keyed by lowercased hex. -/
def TrustStore := List (String × TrustEntry)

/-- TrustRegistry.get_sender: lowercase the key and look it up. -/
def getSender (reg : TrustStore) (public_key : String) : Option TrustEntry :=
  reg.lookup (strLower public_key)

/-! ## Nonce registry (src/epp/policy/nonce_registry.py)

The wall clock (`time.time()`) enters every operation as the explicit
argument `now`. -/

structure NonceRegistry where
  nonces : List (String × Int) := []
  cleanup_interval : Int := 300
  last_cleanup : Int

/-- cleanup_expired: remove every entry with `exp_ts <= now`, stamp
`last_cleanup`, return the number removed. -/
def NonceRegistry.cleanup_expired (r : NonceRegistry) (now : Int) : NonceRegistry × Nat :=
  let kept := r.nonces.filter (fun p => !decide (p.2 ≤ now))
  ({ r with nonces := kept, last_cleanup := now }, r.nonces.length - kept.length)

def NonceRegistry.cleanupIfNeeded (r : NonceRegistry) (now : Int) : NonceRegistry :=
  if r.cleanup_interval ≤ now - r.last_cleanup then (r.cleanup_expired now).1 else r

/-- has_seen: an opportunistic sweep, then membership in the map. -/
def NonceRegistry.has_seen (r : NonceRegistry) (now : Int) (nonce : String) :
    Bool × NonceRegistry :=
  let r1 := r.cleanupIfNeeded now
  (r1.nonces.any (fun p => p.1 == nonce), r1)

/-- add: re-check `has_seen` (raising `ValueError` on a duplicate), parse
`expires_at`, store the pair.  The second component is the registry state
after the call on both outcomes. -/
def NonceRegistry.add (r : NonceRegistry) (now : Int) (nonce expires_at : String) :
    Except String Unit × NonceRegistry :=
  let seenAnd := r.has_seen now nonce
  if seenAnd.1 then (.error ("Nonce has already been seen: " ++ nonce), seenAnd.2)
  else
    match isoParseZ expires_at with
    | some ts => (.ok (), { seenAnd.2 with nonces := seenAnd.2.nonces ++ [(nonce, ts)] })
    | none => (.error ("Invalid isoformat string: " ++ expires_at), seenAnd.2)

/-! ## Rate limiter (src/epp/policy/rate_limiter.py) -/

def hourlyReason (count m : Nat) : String :=
  "Hourly rate limit exceeded (" ++ toString count ++ "/" ++ toString m ++ ")"

def dailyReason (count m : Nat) : String :=
  "Daily rate limit exceeded (" ++ toString count ++ "/" ++ toString m ++ ")"

/-- Steps 4-5 of check_and_record: the daily check, then append `now`. -/
def recordOrDaily (max_per_day : Option Nat) (now : Int) (count_24h : Nat)
    (history : List Int) : (Bool × String) × List Int :=
  match max_per_day with
  | some m =>
      if m ≤ count_24h then ((false, dailyReason count_24h m), history)
      else ((true, ""), history ++ [now])
  | none => ((true, ""), history ++ [now])

/-- RateLimiter.check_and_record for one sender's history deque: drop entries
older than 24 hours from the front, count the last hour and the last day,
reject on a hit limit, otherwise record `now`.  The updated history persists
in the registry on every outcome (the deque is mutated in place). -/
def checkAndRecord (max_per_hour max_per_day : Option Nat) (now : Int)
    (history : List Int) : (Bool × String) × List Int :=
  let h1 := history.dropWhile (fun ts => decide (ts < now - 86400))
  let count_1h := h1.countP (fun ts => decide (now - 3600 ≤ ts))
  let count_24h := h1.length
  match max_per_hour with
  | some m =>
      if m ≤ count_1h then ((false, hourlyReason count_1h m), h1)
      else recordOrDaily max_per_day now count_24h h1
  | none => recordOrDaily max_per_day now count_24h h1

/-- The per-sender map of acceptance instants (`defaultdict(deque)`). -/
def RateStore := List (String × List Int)

def updateRate : List (String × List Int) → String → List Int → List (String × List Int)
  | [], k, v => [(k, v)]
  | (k', v') :: rest, k, v =>
      if k' == k then (k, v) :: rest else (k', v') :: updateRate rest k v

/-- RateLimiter.check_and_record: lowercase the sender key, fetch its history
(empty when absent), run the per-sender logic, write the history back. -/
def rlCheckAndRecord (rl : RateStore) (sender_key : String)
    (max_per_hour max_per_day : Option Nat) (now : Int) : (Bool × String) × RateStore :=
  let key := strLower sender_key
  let history := ((List.lookup key rl).getD [])
  let r := checkAndRecord max_per_hour max_per_day now history
  (r.1, updateRate rl key r.2)

/-! ## Receipts (src/epp/models.py) and executors (src/epp/executors/base.py) -/

inductive ErrorCode where
  | INVALID_FORMAT
  | UNSUPPORTED_VERSION
  | WRONG_RECIPIENT
  | EXPIRED
  | INVALID_SIGNATURE
  | REPLAY_DETECTED
  | UNTRUSTED_SENDER
  | POLICY_DENIED
  | SIZE_EXCEEDED
  | RATE_LIMITED
deriving DecidableEq, Repr

/-- SuccessReceipt (status "accepted") and ErrorReceipt (status "rejected")
as a tagged sum; the constructor is the `status` field. -/
inductive Receipt where
  | success (envelope_id received_at receipt_id executor : String)
  | error (envelope_id received_at : String) (code : ErrorCode) (message : String)
deriving DecidableEq, Repr

def Receipt.isAccepted : Receipt → Bool
  | .success _ _ _ _ => true
  | .error _ _ _ _ => false

def Receipt.errorCode : Receipt → Option ErrorCode
  | .success _ _ _ _ => none
  | .error _ _ c _ => some c

structure ExecutionResult where
  success : Bool
  executor_name : String
  result_data : List (String × Json) := []
  error_message : Option String := none

/-! ## The admission pipeline (src/epp/inbox/processor.py) -/

structure InboxConfig where
  /-- `recipient_public_key_hex.lower()`, fixed at construction. -/
  recipient_key : String
  trust_registry : TrustStore

structure InboxState where
  nonce_registry : NonceRegistry
  rate_limiter : RateStore

/-- Stands for `datetime.now(timezone.utc).isoformat().replace("+00:00","Z")`:
a string determined by the call instant, never branched on downstream. -/
def receivedAtString (now : Int) : String := toString now

/-- InboxProcessor.process_envelope.  `S` is the Ed25519 primitive, `executor`
the configured executor, `now` the wall clock of this call, `receipt_id` the
fresh UUID drawn on acceptance.  Returns the receipt and the state of the two
mutable stores after the call. -/
def processEnvelope (S : SigScheme) (executor : Envelope → ExecutionResult)
    (cfg : InboxConfig) (st : InboxState) (now : Int) (receipt_id : String)
    (envelope_data : RawEnvelope) : Receipt × InboxState :=
  let received_at := receivedAtString now
  let fallback_id := envelope_data.envelope_id.getD "unknown"
  -- Step 1: parse and validate structure
  match parseEnvelope envelope_data with
  | .error msg => (.error fallback_id received_at .INVALID_FORMAT msg, st)
  | .ok envelope =>
    let envelope_id := envelope.envelope_id
    -- Step 2: check version
    if envelope.version ≠ "1" then
      (.error envelope_id received_at .UNSUPPORTED_VERSION
        ("Version '" ++ envelope.version ++ "' not supported"), st)
    -- Step 3: verify recipient
    else if strLower envelope.recipient ≠ cfg.recipient_key then
      (.error envelope_id received_at .WRONG_RECIPIENT
        "Envelope not addressed to this inbox", st)
    -- Step 4: check expiration
    else if envelope.is_expired now then
      (.error envelope_id received_at .EXPIRED
        ("Envelope expired at " ++ envelope.expires_at), st)
    else
      -- Step 5: verify signature (exceptions collapse to INVALID_SIGNATURE)
      match publicKeyFromHex envelope.sender with
      | none =>
          (.error envelope_id received_at .INVALID_SIGNATURE
            "Signature error: could not load sender public key", st)
      | some sender_public_key =>
        if !verify_envelope_signature S sender_public_key envelope.signature
            envelope.version envelope.envelope_id envelope.sender envelope.recipient
            envelope.timestamp envelope.expires_at envelope.nonce envelope.scope
            envelope.payload.dump_exclude_none envelope.conversation_id
            envelope.in_reply_to (envelope.delegation.map Delegation.dump) then
          (.error envelope_id received_at .INVALID_SIGNATURE
            "Cryptographic signature verification failed", st)
        else
          -- Step 6: check for replay (nonce)
          let seenAnd := st.nonce_registry.has_seen now envelope.nonce
          let st1 : InboxState := { st with nonce_registry := seenAnd.2 }
          if seenAnd.1 then
            (.error envelope_id received_at .REPLAY_DETECTED
              "Nonce has been used before", st1)
          else
            -- Step 7: check trust registry
            match getSender cfg.trust_registry envelope.sender with
            | none =>
                (.error envelope_id received_at .UNTRUSTED_SENDER
                  "Sender not in trust registry", st1)
            | some trust_entry =>
              -- Step 8: apply policy - scope
              if !trust_entry.policy.allows_scope envelope.scope then
                (.error envelope_id received_at .POLICY_DENIED
                  ("Scope '" ++ envelope.scope ++ "' not allowed"), st1)
              else
                -- Step 9: apply policy - size
                let envelope_size := envelope.size_bytes
                if !trust_entry.policy.allows_size envelope_size then
                  (.error envelope_id received_at .SIZE_EXCEEDED
                    ("Envelope size " ++ toString envelope_size ++ " exceeds limit"), st1)
                else
                  -- Step 10: apply policy - rate limit
                  let rateAnd := rlCheckAndRecord st1.rate_limiter envelope.sender
                    trust_entry.policy.rate_limit.max_per_hour
                    trust_entry.policy.rate_limit.max_per_day now
                  let st2 : InboxState := { st1 with rate_limiter := rateAnd.2 }
                  if !rateAnd.1.1 then
                    (.error envelope_id received_at .RATE_LIMITED rateAnd.1.2, st2)
                  else
                    -- Step 11: commit nonce (a ValueError here → REPLAY_DETECTED)
                    match st2.nonce_registry.add now envelope.nonce envelope.expires_at
                    with
                    | (.error msg, nr2) =>
                        (.error envelope_id received_at .REPLAY_DETECTED msg,
                         { st2 with nonce_registry := nr2 })
                    | (.ok _, nr2) =>
                        -- Step 12: execute
                        let execution_result := executor envelope
                        (.success envelope_id received_at receipt_id
                           execution_result.executor_name,
                         { st2 with nonce_registry := nr2 })

/-! ## HTTP status mapping (src/epp/inbox/server.py, submit_envelope) -/

def statusCodeFor (receipt : Receipt) : Nat :=
  match receipt with
  | .success _ _ _ _ => 200
  | .error _ _ code _ =>
      if code = .INVALID_FORMAT ∨ code = .UNSUPPORTED_VERSION then 400
      else if code = .INVALID_SIGNATURE ∨ code = .UNTRUSTED_SENDER then 401
      else if code = .POLICY_DENIED ∨ code = .WRONG_RECIPIENT then 403
      else if code = .RATE_LIMITED then 429
      else 400

/-! ## Facts guaranteed by successful validation -/

theorem except_bind_ok {e : Type} {a b : Type} {x : Except e a} {f : a → Except e b}
    {v : b} (h : x >>= f = Except.ok v) : ∃ u, x = Except.ok u ∧ f u = Except.ok v := by
  cases x with
  | error er => exact absurd h (by simp [Bind.bind, Except.bind])
  | ok u => exact ⟨u, rfl, by simpa [Bind.bind, Except.bind] using h⟩

theorem ensure_ok {c : Bool} {m : String} {u : Unit} (h : ensure c m = .ok u) :
    c = true := by
  cases c with
  | true => rfl
  | false => simp [ensure] at h

theorem isoField_ok {v : String} {t : Int} (h : isoField v = .ok t) :
    isoParseZ v = some t := by
  unfold isoField at h
  split at h
  · cases h; assumption
  · cases h

theorem reqField_ok {o : Option String} {n v : String} (h : reqField o n = .ok v) :
    o = some v := by
  cases o with
  | some w => cases h; rfl
  | none => cases h

theorem parseEnvelope_ok_facts {raw : RawEnvelope} {e : Envelope}
    (h : parseEnvelope raw = .ok e) :
    e.version = "1" ∧ (isoParseZ e.expires_at).isSome ∧ raw.version = some e.version := by
  unfold parseEnvelope at h
  obtain ⟨version, hv, h⟩ := except_bind_ok h
  obtain ⟨envelope_id, _, h⟩ := except_bind_ok h
  obtain ⟨sender, _, h⟩ := except_bind_ok h
  obtain ⟨recipient, _, h⟩ := except_bind_ok h
  obtain ⟨timestamp, _, h⟩ := except_bind_ok h
  obtain ⟨expires_at, _, h⟩ := except_bind_ok h
  obtain ⟨nonce, _, h⟩ := except_bind_ok h
  obtain ⟨scope, _, h⟩ := except_bind_ok h
  obtain ⟨rawp, _, h⟩ := except_bind_ok h
  obtain ⟨signature, _, h⟩ := except_bind_ok h
  obtain ⟨u1, hver, h⟩ := except_bind_ok h
  obtain ⟨u2, _, h⟩ := except_bind_ok h
  obtain ⟨u3, _, h⟩ := except_bind_ok h
  obtain ⟨u4, _, h⟩ := except_bind_ok h
  obtain ⟨tsEpoch, _, h⟩ := except_bind_ok h
  obtain ⟨expEpoch, hexp, h⟩ := except_bind_ok h
  obtain ⟨u5, _, h⟩ := except_bind_ok h
  obtain ⟨u6, _, h⟩ := except_bind_ok h
  obtain ⟨u7, _, h⟩ := except_bind_ok h
  obtain ⟨u8, _, h⟩ := except_bind_ok h
  obtain ⟨u9, _, h⟩ := except_bind_ok h
  obtain ⟨payload, _, h⟩ := except_bind_ok h
  obtain ⟨delegation, _, h⟩ := except_bind_ok h
  obtain ⟨u10, _, h⟩ := except_bind_ok h
  cases h
  have hv1 : version = "1" := by
    have := ensure_ok hver
    simpa using this
  refine ⟨hv1, ?_, ?_⟩
  · simp [isoField_ok hexp]
  · rw [reqField_ok hv, hv1]

/-- C6 counterexample: the submit endpoint maps a WRONG_RECIPIENT rejection to
HTTP 403 (the claim says 400) and an UNTRUSTED_SENDER rejection to 401 (the
claim says 403). -/
theorem statusCode_claim_counterexample :
    statusCodeFor (Receipt.error "e1" "t1" ErrorCode.WRONG_RECIPIENT "m") = 403
    ∧ statusCodeFor (Receipt.error "e1" "t1" ErrorCode.UNTRUSTED_SENDER "m") = 401
    ∧ (403 : Nat) ≠ 400 ∧ (401 : Nat) ≠ 403 := by decide

/-- C6 (amended): the HTTP status is a function of the receipt alone:
accepted → 200; INVALID_FORMAT, UNSUPPORTED_VERSION, EXPIRED,
REPLAY_DETECTED, SIZE_EXCEEDED → 400; INVALID_SIGNATURE, UNTRUSTED_SENDER →
401; POLICY_DENIED, WRONG_RECIPIENT → 403; RATE_LIMITED → 429. -/
theorem statusCode_mapping (id recv rcpt exec msg : String) (code : ErrorCode) :
    statusCodeFor (Receipt.success id recv rcpt exec) = 200
    ∧ statusCodeFor (Receipt.error id recv code msg)
        = (match code with
           | .INVALID_FORMAT => 400
           | .UNSUPPORTED_VERSION => 400
           | .EXPIRED => 400
           | .REPLAY_DETECTED => 400
           | .SIZE_EXCEEDED => 400
           | .INVALID_SIGNATURE => 401
           | .UNTRUSTED_SENDER => 401
           | .POLICY_DENIED => 403
           | .WRONG_RECIPIENT => 403
           | .RATE_LIMITED => 429) :=
  ⟨rfl, by cases code <;> rfl⟩

/-- C7: `has_seen` answers exactly membership in the (possibly just swept)
map: the result equals a key-membership test of the map after the call; when
the opportunistic sweep is not due, the answer is membership in the original
map regardless of stored expiries (an expired, not yet collected entry is
still "seen"); a sweep retains exactly the entries whose expiry is in the
future, so it never removes an unexpired entry. -/
theorem nonce_has_seen_iff_present_and_gc_safe (r : NonceRegistry) (now : Int) (n : String) :
    ((r.has_seen now n).1 = (r.has_seen now n).2.nonces.any (fun p => p.1 == n))
    ∧ (now - r.last_cleanup < r.cleanup_interval →
        (r.has_seen now n).1 = r.nonces.any (fun p => p.1 == n))
    ∧ (∀ p, p ∈ (r.cleanup_expired now).1.nonces ↔ (p ∈ r.nonces ∧ now < p.2))
    ∧ (∀ p ∈ r.nonces, now < p.2 → p ∈ (r.has_seen now n).2.nonces) := by
  refine ⟨rfl, ?_, ?_, ?_⟩
  · intro hlt
    simp only [NonceRegistry.has_seen, NonceRegistry.cleanupIfNeeded]
    rw [if_neg (by omega)]
  · intro p
    simp [NonceRegistry.cleanup_expired, List.mem_filter, not_le]
  · intro p hp hf
    simp only [NonceRegistry.has_seen, NonceRegistry.cleanupIfNeeded]
    split
    · refine List.mem_filter.mpr ⟨hp, ?_⟩
      simp [not_le]
      exact hf
    · exact hp

/-- Witness for C7: a nonce whose stored expiry (50) is already past at
`now = 100` is still reported as seen while the sweep is not yet due. -/
theorem nonce_has_seen_witness :
    (100 : Int) - 0 < 300
    ∧ ((⟨[("n1", 50)], 300, 0⟩ : NonceRegistry).has_seen 100 "n1").1 = true := by
  refine ⟨by norm_num, ?_⟩
  have h2 := (nonce_has_seen_iff_present_and_gc_safe ⟨[("n1", 50)], 300, 0⟩ 100 "n1").2.1
    (by norm_num)
  rw [h2]
  rfl

/-! ## Gate reference: the first failing gate, in the order of spec §4.7

`firstFailingCode` walks the gates of §4.7 in order over the same state the
pipeline sees and names the first one that fails.  (The step-11 nonce commit
cannot fail in this sequential embedding — its re-check sees the state left
by gate 6 — a fact proved in `processEnvelope_spec`.) -/

def firstFailingCode (S : SigScheme) (cfg : InboxConfig) (st : InboxState) (now : Int)
    (raw : RawEnvelope) : Option ErrorCode :=
  match parseEnvelope raw with
  | .error _ => some .INVALID_FORMAT
  | .ok e =>
    if e.version ≠ "1" then some .UNSUPPORTED_VERSION
    else if strLower e.recipient ≠ cfg.recipient_key then some .WRONG_RECIPIENT
    else if e.is_expired now then some .EXPIRED
    else
      match publicKeyFromHex e.sender with
      | none => some .INVALID_SIGNATURE
      | some pk =>
        if !verify_envelope_signature S pk e.signature e.version e.envelope_id e.sender
            e.recipient e.timestamp e.expires_at e.nonce e.scope
            e.payload.dump_exclude_none e.conversation_id e.in_reply_to
            (e.delegation.map Delegation.dump) then some .INVALID_SIGNATURE
        else if (st.nonce_registry.has_seen now e.nonce).1 then some .REPLAY_DETECTED
        else
          match getSender cfg.trust_registry e.sender with
          | none => some .UNTRUSTED_SENDER
          | some te =>
            if !te.policy.allows_scope e.scope then some .POLICY_DENIED
            else if !te.policy.allows_size e.size_bytes then some .SIZE_EXCEEDED
            else if !(rlCheckAndRecord st.rate_limiter e.sender
                te.policy.rate_limit.max_per_hour te.policy.rate_limit.max_per_day
                now).1.1 then some .RATE_LIMITED
            else none

theorem filter_idem (p : (String × Int) → Bool) (l : List (String × Int)) :
    (l.filter p).filter p = l.filter p := by
  rw [List.filter_filter]
  exact List.filter_congr (fun a _ => Bool.and_self (p a))

theorem cleanupIfNeeded_idem (r : NonceRegistry) (now : Int) :
    (r.cleanupIfNeeded now).cleanupIfNeeded now = r.cleanupIfNeeded now := by
  unfold NonceRegistry.cleanupIfNeeded NonceRegistry.cleanup_expired
  by_cases c1 : r.cleanup_interval ≤ now - r.last_cleanup
  · rw [if_pos c1]
    simp only
    by_cases c2 : r.cleanup_interval ≤ now - now
    · rw [if_pos c2]
      simp [filter_idem]
    · rw [if_neg c2]
  · rw [if_neg c1, if_neg c1]

/-- The nonce-registry state after `has_seen` is a fixed point of another
`has_seen` at the same instant; in particular the re-check inside `add`
gives the same answer as gate 6. -/
theorem has_seen_post_fixed (r : NonceRegistry) (now : Int) (n : String) :
    (r.has_seen now n).2.has_seen now n
      = ((r.has_seen now n).1, (r.has_seen now n).2) := by
  unfold NonceRegistry.has_seen
  rw [cleanupIfNeeded_idem]

theorem cleanupIfNeeded_nonces_sublist (r : NonceRegistry) (now : Int) :
    (r.cleanupIfNeeded now).nonces.Sublist r.nonces := by
  unfold NonceRegistry.cleanupIfNeeded NonceRegistry.cleanup_expired
  split
  · exact List.filter_sublist _
  · exact List.Sublist.refl _

theorem cleanupIfNeeded_keeps_unexpired (r : NonceRegistry) (now : Int)
    {p : String × Int} (hp : p ∈ r.nonces) (hf : now < p.2) :
    p ∈ (r.cleanupIfNeeded now).nonces := by
  unfold NonceRegistry.cleanupIfNeeded NonceRegistry.cleanup_expired
  split
  · refine List.mem_filter.mpr ⟨hp, ?_⟩
    simp [not_le]
    exact hf
  · exact hp

theorem has_seen_snd (r : NonceRegistry) (now : Int) (n : String) :
    (r.has_seen now n).2 = r.cleanupIfNeeded now := rfl

set_option maxHeartbeats 1000000 in
/-- Master characterisation of one `process_envelope` call, shared by the
claims below: the receipt's code is that of the first failing gate of §4.7;
on acceptance the receipt is the success form built from the parsed envelope
and the executor's report; a rejection at gates 1-5 leaves the state
untouched; only the rate gate changes the rate limiter; a rejected call never
adds a nonce; unexpired nonce entries survive every call; an accepted call
appends exactly its envelope's nonce with its parsed expiry. -/
theorem processEnvelope_spec (S : SigScheme) (executor : Envelope → ExecutionResult)
    (cfg : InboxConfig) (st : InboxState) (now : Int) (receipt_id : String)
    (raw : RawEnvelope) (rcpt : Receipt) (st' : InboxState)
    (hout : processEnvelope S executor cfg st now receipt_id raw = (rcpt, st')) :
    (rcpt.errorCode = firstFailingCode S cfg st now raw)
    ∧ (∀ e, parseEnvelope raw = .ok e → firstFailingCode S cfg st now raw = none →
        rcpt = .success e.envelope_id (receivedAtString now) receipt_id
          (executor e).executor_name)
    ∧ (∀ c, firstFailingCode S cfg st now raw = some c →
        (c = .INVALID_FORMAT ∨ c = .UNSUPPORTED_VERSION ∨ c = .WRONG_RECIPIENT
          ∨ c = .EXPIRED ∨ c = .INVALID_SIGNATURE) → st' = st)
    ∧ (∀ c, rcpt.errorCode = some c → c ≠ .RATE_LIMITED →
        st'.rate_limiter = st.rate_limiter)
    ∧ (rcpt.isAccepted = false →
        st'.nonce_registry.nonces.Sublist st.nonce_registry.nonces)
    ∧ (∀ p ∈ st.nonce_registry.nonces, now < p.2 → p ∈ st'.nonce_registry.nonces)
    ∧ (rcpt.isAccepted = true → ∀ e, parseEnvelope raw = .ok e →
        (st.nonce_registry.has_seen now e.nonce).1 = false
        ∧ ∃ ts, isoParseZ e.expires_at = some ts
            ∧ st'.nonce_registry.nonces
                = (st.nonce_registry.has_seen now e.nonce).2.nonces ++ [(e.nonce, ts)]) := by
  cases hp : parseEnvelope raw with
  | error m =>
      simp only [processEnvelope, hp] at hout
      injection hout with h1 h2
      subst h1
      subst h2
      have hffc : firstFailingCode S cfg st now raw = some .INVALID_FORMAT := by
        simp only [firstFailingCode, hp]
      refine ⟨by simp [Receipt.errorCode, hffc], ?_, ?_, ?_, ?_, ?_, ?_⟩
      · intro e2 he2 hff
        rw [hffc] at hff
        cases hff
      · intro c hc hmem
        rfl
      · intro c hc hne
        rfl
      · intro _
        exact List.Sublist.refl _
      · intro p hp2 hf
        exact hp2
      · intro habs
        simp [Receipt.isAccepted] at habs
  | ok e =>
      have hfacts := parseEnvelope_ok_facts hp
      have hsub := cleanupIfNeeded_nonces_sublist st.nonce_registry now
      have hkeep := fun p hp2 hf =>
        cleanupIfNeeded_keeps_unexpired st.nonce_registry now (p := p) hp2 hf
      simp only [processEnvelope, hp] at hout
      rw [if_neg (by simp [hfacts.1])] at hout
      by_cases h3 : strLower e.recipient ≠ cfg.recipient_key
      · rw [if_pos h3] at hout
        injection hout with h1 h2
        subst h1
        subst h2
        have hffc : firstFailingCode S cfg st now raw = some .WRONG_RECIPIENT := by
          simp only [firstFailingCode, hp]
          rw [if_neg (by simp [hfacts.1]), if_pos h3]
        refine ⟨by simp [Receipt.errorCode, hffc], ?_, ?_, ?_, ?_, ?_, ?_⟩
        · intro e2 he2 hff
          rw [hffc] at hff
          cases hff
        · intro c hc hmem
          rfl
        · intro c hc hne
          rfl
        · intro _
          exact List.Sublist.refl _
        · intro p hp2 hf
          exact hp2
        · intro habs
          simp [Receipt.isAccepted] at habs
      · rw [if_neg h3] at hout
        cases h4 : e.is_expired now with
        | true =>
            rw [if_pos (by simp [h4])] at hout
            injection hout with h1 h2
            subst h1
            subst h2
            have hffc : firstFailingCode S cfg st now raw = some .EXPIRED := by
              simp only [firstFailingCode, hp]
              rw [if_neg (by simp [hfacts.1]), if_neg h3, if_pos (by simp [h4])]
            refine ⟨by simp [Receipt.errorCode, hffc], ?_, ?_, ?_, ?_, ?_, ?_⟩
            · intro e2 he2 hff
              rw [hffc] at hff
              cases hff
            · intro c hc hmem
              rfl
            · intro c hc hne
              rfl
            · intro _
              exact List.Sublist.refl _
            · intro p hp2 hf
              exact hp2
            · intro habs
              simp [Receipt.isAccepted] at habs
        | false =>
            rw [if_neg (by simp [h4])] at hout
            cases hk : publicKeyFromHex e.sender with
            | none =>
                simp only [hk] at hout
                injection hout with h1 h2
                subst h1
                subst h2
                have hffc : firstFailingCode S cfg st now raw
                    = some .INVALID_SIGNATURE := by
                  simp only [firstFailingCode, hp]
                  rw [if_neg (by simp [hfacts.1]), if_neg h3, if_neg (by simp [h4])]
                  simp only [hk]
                refine ⟨by simp [Receipt.errorCode, hffc], ?_, ?_, ?_, ?_, ?_, ?_⟩
                · intro e2 he2 hff
                  rw [hffc] at hff
                  cases hff
                · intro c hc hmem
                  rfl
                · intro c hc hne
                  rfl
                · intro _
                  exact List.Sublist.refl _
                · intro p hp2 hf
                  exact hp2
                · intro habs
                  simp [Receipt.isAccepted] at habs
            | some pk =>
                simp only [hk] at hout
                cases hv : verify_envelope_signature S pk e.signature e.version
                    e.envelope_id e.sender e.recipient e.timestamp e.expires_at e.nonce
                    e.scope e.payload.dump_exclude_none e.conversation_id e.in_reply_to
                    (e.delegation.map Delegation.dump) with
                | false =>
                    rw [if_pos (by simp [hv])] at hout
                    injection hout with h1 h2
                    subst h1
                    subst h2
                    have hffc : firstFailingCode S cfg st now raw
                        = some .INVALID_SIGNATURE := by
                      simp only [firstFailingCode, hp]
                      rw [if_neg (by simp [hfacts.1]), if_neg h3, if_neg (by simp [h4])]
                      simp only [hk]
                      rw [if_pos (by simp [hv])]
                    refine ⟨by simp [Receipt.errorCode, hffc], ?_, ?_, ?_, ?_, ?_, ?_⟩
                    · intro e2 he2 hff
                      rw [hffc] at hff
                      cases hff
                    · intro c hc hmem
                      rfl
                    · intro c hc hne
                      rfl
                    · intro _
                      exact List.Sublist.refl _
                    · intro p hp2 hf
                      exact hp2
                    · intro habs
                      simp [Receipt.isAccepted] at habs
                | true =>
                    rw [if_neg (by simp [hv])] at hout
                    cases h6 : (st.nonce_registry.has_seen now e.nonce).1 with
                    | true =>
                        rw [if_pos (by simp [h6])] at hout
                        injection hout with h1 h2
                        subst h1
                        subst h2
                        have hffc : firstFailingCode S cfg st now raw
                            = some .REPLAY_DETECTED := by
                          simp only [firstFailingCode, hp]
                          rw [if_neg (by simp [hfacts.1]), if_neg h3,
                            if_neg (by simp [h4])]
                          simp only [hk]
                          rw [if_neg (by simp [hv]), if_pos (by simp [h6])]
                        refine ⟨by simp [Receipt.errorCode, hffc], ?_, ?_, ?_, ?_, ?_, ?_⟩
                        · intro e2 he2 hff
                          rw [hffc] at hff
                          cases hff
                        · intro c hc hmem
                          rw [hffc] at hc
                          injection hc with hc2
                          subst hc2
                          rcases hmem with h | h | h | h | h <;> exact absurd h (by decide)
                        · intro c hc hne
                          rfl
                        · intro _
                          exact hsub
                        · intro p hp2 hf
                          exact hkeep p hp2 hf
                        · intro habs
                          simp [Receipt.isAccepted] at habs
                    | false =>
                        rw [if_neg (by simp [h6])] at hout
                        cases h7 : getSender cfg.trust_registry e.sender with
                        | none =>
                            simp only [h7] at hout
                            injection hout with h1 h2
                            subst h1
                            subst h2
                            have hffc : firstFailingCode S cfg st now raw
                                = some .UNTRUSTED_SENDER := by
                              simp only [firstFailingCode, hp]
                              rw [if_neg (by simp [hfacts.1]), if_neg h3,
                                if_neg (by simp [h4])]
                              simp only [hk]
                              rw [if_neg (by simp [hv]), if_neg (by simp [h6])]
                              simp only [h7]
                            refine ⟨by simp [Receipt.errorCode, hffc], ?_, ?_, ?_, ?_,
                              ?_, ?_⟩
                            · intro e2 he2 hff
                              rw [hffc] at hff
                              cases hff
                            · intro c hc hmem
                              rw [hffc] at hc
                              injection hc with hc2
                              subst hc2
                              rcases hmem with h | h | h | h | h <;>
                                exact absurd h (by decide)
                            · intro c hc hne
                              rfl
                            · intro _
                              exact hsub
                            · intro p hp2 hf
                              exact hkeep p hp2 hf
                            · intro habs
                              simp [Receipt.isAccepted] at habs
                        | some te =>
                            simp only [h7] at hout
                            cases h8 : te.policy.allows_scope e.scope with
                            | false =>
                                rw [if_pos (by simp [h8])] at hout
                                injection hout with h1 h2
                                subst h1
                                subst h2
                                have hffc : firstFailingCode S cfg st now raw
                                    = some .POLICY_DENIED := by
                                  simp only [firstFailingCode, hp]
                                  rw [if_neg (by simp [hfacts.1]), if_neg h3,
                                    if_neg (by simp [h4])]
                                  simp only [hk]
                                  rw [if_neg (by simp [hv]), if_neg (by simp [h6])]
                                  simp only [h7]
                                  rw [if_pos (by simp [h8])]
                                refine ⟨by simp [Receipt.errorCode, hffc], ?_, ?_, ?_,
                                  ?_, ?_, ?_⟩
                                · intro e2 he2 hff
                                  rw [hffc] at hff
                                  cases hff
                                · intro c hc hmem
                                  rw [hffc] at hc
                                  injection hc with hc2
                                  subst hc2
                                  rcases hmem with h | h | h | h | h <;>
                                    exact absurd h (by decide)
                                · intro c hc hne
                                  rfl
                                · intro _
                                  exact hsub
                                · intro p hp2 hf
                                  exact hkeep p hp2 hf
                                · intro habs
                                  simp [Receipt.isAccepted] at habs
                            | true =>
                                rw [if_neg (by simp [h8])] at hout
                                cases h9 : te.policy.allows_size e.size_bytes with
                                | false =>
                                    rw [if_pos (by simp [h9])] at hout
                                    injection hout with h1 h2
                                    subst h1
                                    subst h2
                                    have hffc : firstFailingCode S cfg st now raw
                                        = some .SIZE_EXCEEDED := by
                                      simp only [firstFailingCode, hp]
                                      rw [if_neg (by simp [hfacts.1]), if_neg h3,
                                        if_neg (by simp [h4])]
                                      simp only [hk]
                                      rw [if_neg (by simp [hv]), if_neg (by simp [h6])]
                                      simp only [h7]
                                      rw [if_neg (by simp [h8]), if_pos (by simp [h9])]
                                    refine ⟨by simp [Receipt.errorCode, hffc], ?_, ?_,
                                      ?_, ?_, ?_, ?_⟩
                                    · intro e2 he2 hff
                                      rw [hffc] at hff
                                      cases hff
                                    · intro c hc hmem
                                      rw [hffc] at hc
                                      injection hc with hc2
                                      subst hc2
                                      rcases hmem with h | h | h | h | h <;>
                                        exact absurd h (by decide)
                                    · intro c hc hne
                                      rfl
                                    · intro _
                                      exact hsub
                                    · intro p hp2 hf
                                      exact hkeep p hp2 hf
                                    · intro habs
                                      simp [Receipt.isAccepted] at habs
                                | true =>
                                    rw [if_neg (by simp [h9])] at hout
                                    cases h10 : (rlCheckAndRecord st.rate_limiter
                                        e.sender te.policy.rate_limit.max_per_hour
                                        te.policy.rate_limit.max_per_day now).1.1 with
                                    | false =>
                                        rw [if_pos (by simp [h10])] at hout
                                        injection hout with h1 h2
                                        subst h1
                                        subst h2
                                        have hffc : firstFailingCode S cfg st now raw
                                            = some .RATE_LIMITED := by
                                          simp only [firstFailingCode, hp]
                                          rw [if_neg (by simp [hfacts.1]), if_neg h3,
                                            if_neg (by simp [h4])]
                                          simp only [hk]
                                          rw [if_neg (by simp [hv]),
                                            if_neg (by simp [h6])]
                                          simp only [h7]
                                          rw [if_neg (by simp [h8]),
                                            if_neg (by simp [h9]),
                                            if_pos (by simp [h10])]
                                        refine ⟨by simp [Receipt.errorCode, hffc], ?_,
                                          ?_, ?_, ?_, ?_, ?_⟩
                                        · intro e2 he2 hff
                                          rw [hffc] at hff
                                          cases hff
                                        · intro c hc hmem
                                          rw [hffc] at hc
                                          injection hc with hc2
                                          subst hc2
                                          rcases hmem with h | h | h | h | h <;>
                                            exact absurd h (by decide)
                                        · intro c hc hne
                                          injection hc with hc2
                                          subst hc2
                                          exact absurd rfl hne
                                        · intro _
                                          exact hsub
                                        · intro p hp2 hf
                                          exact hkeep p hp2 hf
                                        · intro habs
                                          simp [Receipt.isAccepted] at habs
                                    | true =>
                                        rw [if_neg (by simp [h10])] at hout
                                        obtain ⟨ts, hts⟩ :=
                                          Option.isSome_iff_exists.mp hfacts.2.1
                                        have hadd : (st.nonce_registry.has_seen now
                                              e.nonce).2.add now e.nonce e.expires_at
                                            = (Except.ok (),
                                               { (st.nonce_registry.has_seen now
                                                   e.nonce).2 with
                                                 nonces := (st.nonce_registry.has_seen
                                                     now e.nonce).2.nonces
                                                   ++ [(e.nonce, ts)] }) := by
                                          unfold NonceRegistry.add
                                          rw [has_seen_post_fixed,
                                            if_neg (by simp [h6]), hts]
                                        simp only [hadd] at hout
                                        injection hout with h1 h2
                                        subst h1
                                        subst h2
                                        have hffc : firstFailingCode S cfg st now raw
                                            = none := by
                                          simp only [firstFailingCode, hp]
                                          rw [if_neg (by simp [hfacts.1]), if_neg h3,
                                            if_neg (by simp [h4])]
                                          simp only [hk]
                                          rw [if_neg (by simp [hv]),
                                            if_neg (by simp [h6])]
                                          simp only [h7]
                                          rw [if_neg (by simp [h8]),
                                            if_neg (by simp [h9]),
                                            if_neg (by simp [h10])]
                                        refine ⟨by simp [Receipt.errorCode, hffc], ?_,
                                          ?_, ?_, ?_, ?_, ?_⟩
                                        · intro e2 he2 hff
                                          injection he2 with hee
                                          subst hee
                                          rfl
                                        · intro c hc hmem
                                          rw [hffc] at hc
                                          cases hc
                                        · intro c hc hne
                                          cases hc
                                        · intro habs
                                          simp [Receipt.isAccepted] at habs
                                        · intro p hp2 hf
                                          exact List.mem_append_left _
                                            (hkeep p hp2 hf)
                                        · intro _ e2 he2
                                          injection he2 with hee
                                          subst hee
                                          exact ⟨h6, ts, hts, rfl⟩

theorem Receipt.isAccepted_iff_errorCode (r : Receipt) :
    r.isAccepted = true ↔ r.errorCode = none := by
  cases r <;> simp [Receipt.isAccepted, Receipt.errorCode]

/-- C2: the pipeline evaluates its gates in exactly the order of §4.7 — the
order `firstFailingCode` walks them in (parse, version, recipient, freshness,
signature, replay, trust, scope, size, rate, commit, execute) — and for every
input the receipt carries the code of the first failing gate (acceptance when
none fails).  No later gate's state change happens after a failure: a
rejection at the parse, version, recipient, freshness or signature gate
leaves the whole state untouched; any rejection whose code is not
RATE_LIMITED leaves the rate limiter unchanged; and a rejected call never
commits a nonce (its nonce map is a sublist of the one before the call). -/
theorem pipeline_first_failing_gate (S : SigScheme)
    (executor : Envelope → ExecutionResult) (cfg : InboxConfig) (st : InboxState)
    (now : Int) (receipt_id : String) (raw : RawEnvelope) :
    ((processEnvelope S executor cfg st now receipt_id raw).1.errorCode
        = firstFailingCode S cfg st now raw)
    ∧ ((processEnvelope S executor cfg st now receipt_id raw).1.isAccepted = true
        ↔ firstFailingCode S cfg st now raw = none)
    ∧ (∀ c, firstFailingCode S cfg st now raw = some c →
        (c = .INVALID_FORMAT ∨ c = .UNSUPPORTED_VERSION ∨ c = .WRONG_RECIPIENT
          ∨ c = .EXPIRED ∨ c = .INVALID_SIGNATURE) →
        (processEnvelope S executor cfg st now receipt_id raw).2 = st)
    ∧ (∀ c, firstFailingCode S cfg st now raw = some c → c ≠ .RATE_LIMITED →
        (processEnvelope S executor cfg st now receipt_id raw).2.rate_limiter
          = st.rate_limiter)
    ∧ ((processEnvelope S executor cfg st now receipt_id raw).1.isAccepted = false →
        (processEnvelope S executor cfg st now
            receipt_id raw).2.nonce_registry.nonces.Sublist
          st.nonce_registry.nonces) := by
  cases hE : processEnvelope S executor cfg st now receipt_id raw with
  | mk rcpt st' =>
    have spec := processEnvelope_spec S executor cfg st now receipt_id raw rcpt st' hE
    refine ⟨spec.1, ?_, spec.2.2.1, ?_, spec.2.2.2.2.1⟩
    · rw [Receipt.isAccepted_iff_errorCode, spec.1]
    · intro c hc hne
      exact spec.2.2.2.1 c (by rw [spec.1, hc]) hne

/-- C9: an envelope that passes all admission gates yields a SuccessReceipt
with status "accepted" regardless of the executor's reported outcome: for
every executor function — including any that reports `success = false` or an
error message — the receipt is the success form carrying the executor's
reported name, never an ErrorReceipt.  (`firstFailingCode`, hence admission,
does not depend on the executor at all.) -/
theorem executor_failure_does_not_reject (S : SigScheme) (cfg : InboxConfig)
    (st : InboxState) (now : Int) (receipt_id : String) (raw : RawEnvelope)
    (e : Envelope) (hp : parseEnvelope raw = .ok e)
    (hpass : firstFailingCode S cfg st now raw = none)
    (executor : Envelope → ExecutionResult) :
    (processEnvelope S executor cfg st now receipt_id raw).1
      = .success e.envelope_id (receivedAtString now) receipt_id
          (executor e).executor_name := by
  cases hE : processEnvelope S executor cfg st now receipt_id raw with
  | mk rcpt st' =>
    exact (processEnvelope_spec S executor cfg st now receipt_id raw rcpt st' hE).2.1
      e hp hpass

/-- Modelled from the spec: the size gate as §4.7 and §8 word it — comparing
the byte length of the serialized envelope in the form it was received
against `entry.policy.max_envelope_size`.  The pipeline of the source has no
access to the received byte form (it is handed a parsed dictionary), so this
definition exists only to state the claim against the code's behaviour. -/
def sizeGateSpec (received_len max_envelope_size : Nat) : Bool :=
  received_len ≤ max_envelope_size

/-- C5 (amended): the size gate compares the RE-serialized envelope —
`len(envelope.model_dump_json().encode("utf-8"))`, a pure function of the
parsed value — against the policy limit, not the received byte form (which
`process_envelope` never sees): for an envelope that reaches the size gate,
the receipt is SIZE_EXCEEDED exactly when `size_bytes` exceeds
`max_envelope_size`; an envelope whose re-serialization is exactly at the
limit passes the gate. -/
theorem size_gate_uses_reserialized_length (S : SigScheme)
    (executor : Envelope → ExecutionResult) (cfg : InboxConfig) (st : InboxState)
    (now : Int) (receipt_id : String) (raw : RawEnvelope) (e : Envelope)
    (te : TrustEntry)
    (hp : parseEnvelope raw = .ok e)
    (h3 : ¬strLower e.recipient ≠ cfg.recipient_key)
    (h4 : e.is_expired now = false)
    (pk : List Nat) (hk : publicKeyFromHex e.sender = some pk)
    (hv : verify_envelope_signature S pk e.signature e.version e.envelope_id e.sender
        e.recipient e.timestamp e.expires_at e.nonce e.scope
        e.payload.dump_exclude_none e.conversation_id e.in_reply_to
        (e.delegation.map Delegation.dump) = true)
    (h6 : (st.nonce_registry.has_seen now e.nonce).1 = false)
    (h7 : getSender cfg.trust_registry e.sender = some te)
    (h8 : te.policy.allows_scope e.scope = true) :
    ((processEnvelope S executor cfg st now receipt_id raw).1.errorCode
        = some ErrorCode.SIZE_EXCEEDED
      ↔ te.policy.max_envelope_size < e.size_bytes) := by
  have hfacts := parseEnvelope_ok_facts hp
  cases hE : processEnvelope S executor cfg st now receipt_id raw with
  | mk rcpt st' =>
    have spec1 := (processEnvelope_spec S executor cfg st now receipt_id raw
      rcpt st' hE).1
    rw [spec1]
    simp only [firstFailingCode, hp]
    rw [if_neg (by simp [hfacts.1]), if_neg h3, if_neg (by simp [h4])]
    simp only [hk]
    rw [if_neg (by simp [hv]), if_neg (by simp [h6])]
    simp only [h7]
    rw [if_neg (by simp [h8])]
    cases h9 : te.policy.allows_size e.size_bytes with
    | false =>
        rw [if_pos (by simp [h9])]
        simp only [SenderPolicy.allows_size, decide_eq_false_iff_not, not_le] at h9
        simp [h9]
    | true =>
        rw [if_neg (by simp [h9])]
        simp only [SenderPolicy.allows_size, decide_eq_true_eq] at h9
        cases h10 : (rlCheckAndRecord st.rate_limiter e.sender
            te.policy.rate_limit.max_per_hour te.policy.rate_limit.max_per_day
            now).1.1 with
        | false =>
            rw [if_pos (by simp [h10])]
            simp
            omega
        | true =>
            rw [if_neg (by simp [h10])]
            simp
            omega

/-! ## Rate limiter: single-sender trace semantics

`simulateRate` plays a sequence of `check_and_record` calls for one sender
(times in call order) and returns the accepted instants. -/

def simulateRate (hmax dmax : Option Nat) : List Int → List Int → List Int
  | [], _ => []
  | t :: rest, hist =>
      let r := checkAndRecord hmax dmax t hist
      if r.1.1 then t :: simulateRate hmax dmax rest r.2
      else simulateRate hmax dmax rest r.2

/-- Membership count of a closed 3600-second window `[t0, t0 + 3600]`. -/
def countWindow (t0 : Int) (l : List Int) : Nat :=
  l.countP (fun x => decide (t0 ≤ x) && decide (x ≤ t0 + 3600))

theorem dropWhile_lt_eq_filter (cut : Int) :
    ∀ l : List Int, l.Pairwise (· ≤ ·) →
      l.dropWhile (fun x => decide (x < cut)) = l.filter (fun x => decide (cut ≤ x)) := by
  intro l
  induction l with
  | nil => intro _; rfl
  | cons a t ih =>
    intro hp
    rcases List.pairwise_cons.mp hp with ⟨ha, ht⟩
    by_cases hc : a < cut
    · rw [List.dropWhile_cons_of_pos (by simpa using hc),
        List.filter_cons_of_neg (by simpa using not_le.mpr hc)]
      exact ih ht
    · rw [List.dropWhile_cons_of_neg (by simpa using hc),
        List.filter_cons_of_pos (by simpa using not_lt.mp hc)]
      have : t.filter (fun x => decide (cut ≤ x)) = t := by
        rw [List.filter_eq_self]
        intro b hb
        simpa using le_trans (not_lt.mp hc) (ha b hb)
      rw [this]

theorem filter_ge_filter_ge (c cut : Int) (hcc : c ≤ cut) (A : List Int) :
    (A.filter (fun a => decide (c ≤ a))).filter (fun a => decide (cut ≤ a))
      = A.filter (fun a => decide (cut ≤ a)) := by
  rw [List.filter_filter]
  refine List.filter_congr ?_
  intro a _
  by_cases h : cut ≤ a
  · simp [h, le_trans hcc h]
  · simp [h]

theorem countP_ge_of_filter_ge (c cut : Int) (hcc : cut ≤ c) (A : List Int) :
    (A.filter (fun a => decide (cut ≤ a))).countP (fun a => decide (c ≤ a))
      = A.countP (fun a => decide (c ≤ a)) := by
  rw [List.countP_filter]
  refine List.countP_congr ?_
  intro a _
  by_cases h : c ≤ a
  · simp [h, le_trans hcc h]
  · simp [h]

/-- Case analysis of one `check_and_record` call with an hourly limit. -/
theorem checkAndRecord_cases (n : Nat) (d : Option Nat) (now : Int) (hist : List Int) :
    ((checkAndRecord (some n) d now hist).1.1 = true →
        (hist.dropWhile (fun x => decide (x < now - 86400))).countP
            (fun x => decide (now - 3600 ≤ x)) < n
        ∧ (checkAndRecord (some n) d now hist).2
            = hist.dropWhile (fun x => decide (x < now - 86400)) ++ [now])
    ∧ ((checkAndRecord (some n) d now hist).1.1 = false →
        (checkAndRecord (some n) d now hist).2
          = hist.dropWhile (fun x => decide (x < now - 86400))) := by
  cases d with
  | none =>
      simp only [checkAndRecord, recordOrDaily]
      by_cases hh : n ≤ (hist.dropWhile (fun x => decide (x < now - 86400))).countP
          (fun x => decide (now - 3600 ≤ x))
      · rw [if_pos hh]
        refine ⟨?_, ?_⟩
        · intro habs
          simp at habs
        · intro _
          rfl
      · rw [if_neg hh]
        refine ⟨?_, ?_⟩
        · intro _
          exact ⟨by omega, rfl⟩
        · intro habs
          simp at habs
  | some m =>
      simp only [checkAndRecord, recordOrDaily]
      by_cases hh : n ≤ (hist.dropWhile (fun x => decide (x < now - 86400))).countP
          (fun x => decide (now - 3600 ≤ x))
      · rw [if_pos hh]
        refine ⟨?_, ?_⟩
        · intro habs
          simp at habs
        · intro _
          rfl
      · rw [if_neg hh]
        by_cases hd : m ≤ (hist.dropWhile (fun x => decide (x < now - 86400))).length
        · rw [if_pos hd]
          refine ⟨?_, ?_⟩
          · intro habs
            simp at habs
          · intro _
            rfl
        · rw [if_neg hd]
          refine ⟨?_, ?_⟩
          · intro _
            exact ⟨by omega, rfl⟩
          · intro habs
            simp at habs

theorem simulateRate_window_bound (n : Nat) (d : Option Nat) :
    ∀ (ts A : List Int) (c : Int),
      (A ++ ts).Pairwise (· ≤ ·) →
      (∀ t ∈ ts, c ≤ t - 86400) →
      ∀ t0, countWindow t0
          (A ++ simulateRate (some n) d ts (A.filter (fun a => decide (c ≤ a))))
        ≤ max n (countWindow t0 A) := by
  intro ts
  induction ts with
  | nil =>
      intro A c _ _ t0
      simp only [simulateRate, List.append_nil]
      exact le_max_right _ _
  | cons t1 rest ih =>
      intro A c hpair hcut t0
      have hA_sorted : A.Pairwise (· ≤ ·) := (List.pairwise_append.mp hpair).1
      have hts_sorted : (t1 :: rest).Pairwise (· ≤ ·) := (List.pairwise_append.mp hpair).2.1
      have ht1rest : ∀ t ∈ rest, t1 ≤ t := (List.pairwise_cons.mp hts_sorted).1
      have hc1 : c ≤ t1 - 86400 := hcut t1 (by simp)
      have hdrop : (A.filter (fun a => decide (c ≤ a))).dropWhile
            (fun x => decide (x < t1 - 86400))
          = A.filter (fun a => decide (t1 - 86400 ≤ a)) := by
        rw [dropWhile_lt_eq_filter (t1 - 86400) _ (hA_sorted.filter _),
          filter_ge_filter_ge c (t1 - 86400) hc1]
      have hcc := checkAndRecord_cases n d t1 (A.filter (fun a => decide (c ≤ a)))
      simp only [simulateRate]
      cases hacc : (checkAndRecord (some n) d t1
          (A.filter (fun a => decide (c ≤ a)))).1.1 with
      | false =>
          rw [if_neg (by simp [hacc])]
          have h2 := hcc.2 hacc
          rw [h2, hdrop]
          exact ih A (t1 - 86400)
            (List.Pairwise.sublist
              (List.Sublist.append_left (List.sublist_cons_self t1 rest) A) hpair)
            (fun t ht => by have := ht1rest t ht; omega) t0
      | true =>
          rw [if_pos (by simp [hacc])]
          obtain ⟨hlt, h2⟩ := hcc.1 hacc
          rw [hdrop] at hlt
          rw [countP_ge_of_filter_ge (t1 - 3600) (t1 - 86400) (by omega) A] at hlt
          rw [h2, hdrop]
          have heq : (A ++ [t1]).filter (fun a => decide (t1 - 86400 ≤ a))
              = A.filter (fun a => decide (t1 - 86400 ≤ a)) ++ [t1] := by
            rw [List.filter_append]
            congr 1
            simp only [List.filter_cons, List.filter_nil]
            rw [if_pos (by simp)]
          have hres := ih (A ++ [t1]) (t1 - 86400)
            (by rwa [← List.append_cons])
            (fun t ht => by have := ht1rest t ht; omega) t0
          rw [heq, List.append_assoc] at hres
          simp only [List.singleton_append] at hres
          refine le_trans hres ?_
          have hcw : countWindow t0 (A ++ [t1])
              = countWindow t0 A + countWindow t0 [t1] := List.countP_append _ _ _
          by_cases hw : t0 ≤ t1 ∧ t1 ≤ t0 + 3600
          · have h1w : countWindow t0 [t1] = 1 := by
              simp [countWindow, hw.1, hw.2]
            have hmono : countWindow t0 A
                ≤ A.countP (fun x => decide (t1 - 3600 ≤ x)) := by
              refine List.countP_mono_left ?_
              intro a _ hwa
              simp only [Bool.and_eq_true, decide_eq_true_eq] at hwa
              simp only [decide_eq_true_eq]
              omega
            have hn : countWindow t0 A + 1 ≤ n := by omega
            rw [hcw, h1w]
            exact max_le (le_max_left _ _) (le_trans hn (le_max_left _ _))
          · have hnot : ¬((decide (t0 ≤ t1) && decide (t1 ≤ t0 + 3600)) = true) := by
              simp only [Bool.and_eq_true, decide_eq_true_eq]
              omega
            have h0w : countWindow t0 [t1] = 0 := by
              simp [countWindow, List.countP_cons, hnot]
            rw [hcw, h0w]
            simp

/-- C8: under `max_per_hour = n` each `check_and_record` call first drops
entries older than 24 hours, rejects with exactly the reason
"Hourly rate limit exceeded (h/n)" whenever the count `h` of recorded
instants within the last 3600 seconds satisfies `h ≥ n`, and records the
current instant only on acceptance; consequently, starting from a fresh
limiter and with call instants in order, no more than `n` calls are accepted
within any rolling (closed) 3600-second window. -/
theorem rate_limiter_hourly_cap :
    (∀ (n : Nat) (d : Option Nat) (now : Int) (hist : List Int),
      (n ≤ (hist.dropWhile (fun x => decide (x < now - 86400))).countP
          (fun x => decide (now - 3600 ≤ x)) →
        checkAndRecord (some n) d now hist
          = ((false, hourlyReason
                ((hist.dropWhile (fun x => decide (x < now - 86400))).countP
                  (fun x => decide (now - 3600 ≤ x))) n),
             hist.dropWhile (fun x => decide (x < now - 86400))))
      ∧ ((checkAndRecord (some n) d now hist).1.1 = true →
          (hist.dropWhile (fun x => decide (x < now - 86400))).countP
              (fun x => decide (now - 3600 ≤ x)) < n
          ∧ (checkAndRecord (some n) d now hist).2
              = hist.dropWhile (fun x => decide (x < now - 86400)) ++ [now])
      ∧ ((checkAndRecord (some n) d now hist).1.1 = false →
          (checkAndRecord (some n) d now hist).2
            = hist.dropWhile (fun x => decide (x < now - 86400))))
    ∧ (∀ (n : Nat) (d : Option Nat) (ts : List Int), ts.Pairwise (· ≤ ·) →
        ∀ t0, countWindow t0 (simulateRate (some n) d ts []) ≤ n) := by
  constructor
  · intro n d now hist
    refine ⟨?_, (checkAndRecord_cases n d now hist).1,
      (checkAndRecord_cases n d now hist).2⟩
    intro hge
    simp only [checkAndRecord]
    rw [if_pos hge]
  · intro n d ts hs t0
    cases ts with
    | nil => simp [simulateRate, countWindow]
    | cons t1 rest =>
        have hb := simulateRate_window_bound n d (t1 :: rest) [] (t1 - 86400)
          (by simpa using hs)
          (by
            intro t ht
            rcases List.mem_cons.mp ht with rfl | ht2
            · omega
            · have : t1 ≤ t := (List.pairwise_cons.mp hs).1 t ht2
              omega) t0
        simp only [List.nil_append, List.filter_nil] at hb
        have h0 : countWindow t0 ([] : List Int) = 0 := rfl
        rw [h0, Nat.max_zero] at hb
        exact hb

/-- Witness for C8: a fresh limiter with one recorded instant and
`max_per_hour = 1` rejects with the exact claimed reason; a three-call trace
under `max_per_hour = 2` stays within the cap on the window `[0, 3600]`. -/
theorem rate_limiter_hourly_cap_witness :
    checkAndRecord (some 1) none 200 [100]
      = ((false, "Hourly rate limit exceeded (1/1)"), [100])
    ∧ countWindow 0 (simulateRate (some 2) none [0, 10, 20] []) ≤ 2 := by
  constructor
  · exact ((rate_limiter_hourly_cap.1 1 none 200 [100]).1 (by decide)).trans (by decide)
  · exact rate_limiter_hourly_cap.2 2 none [0, 10, 20] (by decide) 0

/-! ## Traces of process_envelope calls (claim C1) -/

structure Call where
  now : Int
  receipt_id : String
  raw : RawEnvelope

/-- The nonce an input would carry if it validates. -/
def callNonce (c : Call) : Option String :=
  match parseEnvelope c.raw with
  | .ok e => some e.nonce
  | .error _ => none

/-- Number of calls of the trace that return an accepted receipt and whose
envelope carries nonce `N`, processing sequentially from state `st`. -/
def countAcceptedNonce (S : SigScheme) (executor : Envelope → ExecutionResult)
    (cfg : InboxConfig) (N : String) : List Call → InboxState → Nat
  | [], _ => 0
  | c :: rest, st =>
      let r := processEnvelope S executor cfg st c.now c.receipt_id c.raw
      (if r.1.isAccepted = true ∧ callNonce c = some N then 1 else 0)
        + countAcceptedNonce S executor cfg N rest r.2

theorem mem_unexpired_has_seen {r : NonceRegistry} {now E : Int} {N : String}
    (hm : (N, E) ∈ r.nonces) (hlt : now < E) : (r.has_seen now N).1 = true := by
  have hmem := cleanupIfNeeded_keeps_unexpired r now hm hlt
  show (r.cleanupIfNeeded now).nonces.any (fun p => p.1 == N) = true
  rw [List.any_eq_true]
  exact ⟨(N, E), hmem, by simp⟩

theorem countAcceptedNonce_blocked (S : SigScheme)
    (executor : Envelope → ExecutionResult) (cfg : InboxConfig) (N : String) :
    ∀ (calls : List Call) (st : InboxState) (E : Int),
      (N, E) ∈ st.nonce_registry.nonces →
      (∀ c ∈ calls, c.now < E) →
      countAcceptedNonce S executor cfg N calls st = 0 := by
  intro calls
  induction calls with
  | nil => intro st E _ _; rfl
  | cons c rest ih =>
      intro st E hmem hlt
      simp only [countAcceptedNonce]
      cases hE : processEnvelope S executor cfg st c.now c.receipt_id c.raw with
      | mk rcpt st' =>
        have spec := processEnvelope_spec S executor cfg st c.now c.receipt_id c.raw
          rcpt st' hE
        have hkept : (N, E) ∈ st'.nonce_registry.nonces :=
          spec.2.2.2.2.2.1 (N, E) hmem (hlt c (by simp))
        have hnot : ¬(rcpt.isAccepted = true ∧ callNonce c = some N) := by
          rintro ⟨hacc, hN⟩
          unfold callNonce at hN
          cases hp : parseEnvelope c.raw with
          | error m =>
              rw [hp] at hN
              cases hN
          | ok e =>
              rw [hp] at hN
              injection hN with hN2
              have h78 := spec.2.2.2.2.2.2 hacc e hp
              have hfalse := h78.1
              rw [hN2] at hfalse
              have hseen := mem_unexpired_has_seen hmem (hlt c (by simp))
              rw [hfalse] at hseen
              cases hseen
        rw [if_neg hnot, ih st' E hkept (fun c2 hc2 => hlt c2 (by simp [hc2]))]

/-- C1 (amended): for any sequence of calls on one processor state and any
fixed nonce N, provided every call in the sequence occurs strictly before the
parsed expiry of every envelope of the sequence carrying nonce N — so that no
opportunistic GC sweep can collect N while an envelope carrying it is still
fresh — at most one call with nonce N returns a SuccessReceipt; moreover
while N is committed and unexpired, a later envelope carrying N is rejected
at or before the replay gate (with REPLAY_DETECTED when gates 1-5 pass). -/
theorem nonce_at_most_one_accepted (S : SigScheme)
    (executor : Envelope → ExecutionResult) (cfg : InboxConfig) (N : String) :
    (∀ (calls : List Call) (st : InboxState),
      (∀ c ∈ calls, ∀ e, parseEnvelope c.raw = .ok e → e.nonce = N →
        ∀ t, isoParseZ e.expires_at = some t → ∀ c2 ∈ calls, c2.now < t) →
      countAcceptedNonce S executor cfg N calls st ≤ 1)
    ∧ (∀ (st : InboxState) (c : Call) (E : Int) (e : Envelope),
        (N, E) ∈ st.nonce_registry.nonces → c.now < E →
        parseEnvelope c.raw = .ok e → e.nonce = N →
        firstFailingCode S cfg st c.now c.raw = some .WRONG_RECIPIENT
        ∨ firstFailingCode S cfg st c.now c.raw = some .EXPIRED
        ∨ firstFailingCode S cfg st c.now c.raw = some .INVALID_SIGNATURE
        ∨ firstFailingCode S cfg st c.now c.raw = some .REPLAY_DETECTED) := by
  constructor
  · intro calls
    induction calls with
    | nil => intro st _; simp [countAcceptedNonce]
    | cons c rest ih =>
        intro st hbound
        simp only [countAcceptedNonce]
        cases hE : processEnvelope S executor cfg st c.now c.receipt_id c.raw with
        | mk rcpt st' =>
          by_cases hacc : rcpt.isAccepted = true ∧ callNonce c = some N
          · rw [if_pos hacc]
            obtain ⟨hacc1, hN⟩ := hacc
            cases hp : parseEnvelope c.raw with
            | error m =>
                unfold callNonce at hN
                rw [hp] at hN
                cases hN
            | ok e =>
                unfold callNonce at hN
                rw [hp] at hN
                injection hN with hN2
                have spec := processEnvelope_spec S executor cfg st c.now c.receipt_id
                  c.raw rcpt st' hE
                obtain ⟨hseenF, ts, hts, hnonces⟩ := spec.2.2.2.2.2.2 hacc1 e hp
                have hmem : (N, ts) ∈ st'.nonce_registry.nonces := by
                  rw [hnonces, hN2]
                  exact List.mem_append_right _ (by simp)
                have hblock := countAcceptedNonce_blocked S executor cfg N rest st' ts
                  hmem
                  (fun c2 hc2 =>
                    hbound c (by simp) e hp hN2 ts hts c2 (by simp [hc2]))
                have hsnd : countAcceptedNonce S executor cfg N rest (rcpt, st').2
                    = countAcceptedNonce S executor cfg N rest st' := rfl
                rw [hsnd, hblock]
          · rw [if_neg hacc]
            have hrest := ih st'
              (fun c2 hc2 e he hn t ht c3 hc3 =>
                hbound c2 (by simp [hc2]) e he hn t ht c3 (by simp [hc3]))
            simpa using hrest
  · intro st c E e hmem hlt hp hN2
    have hfacts := parseEnvelope_ok_facts hp
    simp only [firstFailingCode, hp]
    rw [if_neg (by simp [hfacts.1])]
    by_cases h3 : strLower e.recipient ≠ cfg.recipient_key
    · rw [if_pos h3]
      exact Or.inl (by trivial)
    · rw [if_neg h3]
      cases h4 : e.is_expired c.now with
      | true =>
          rw [if_pos (by simp [h4])]
          exact Or.inr (Or.inl (by trivial))
      | false =>
          rw [if_neg (by simp [h4])]
          cases hk : publicKeyFromHex e.sender with
          | none =>
              simp only [hk]
              exact Or.inr (Or.inr (Or.inl (by trivial)))
          | some pk =>
              simp only [hk]
              cases hv : verify_envelope_signature S pk e.signature e.version
                  e.envelope_id e.sender e.recipient e.timestamp e.expires_at e.nonce
                  e.scope e.payload.dump_exclude_none e.conversation_id e.in_reply_to
                  (e.delegation.map Delegation.dump) with
              | false =>
                  rw [if_pos (by simp [hv])]
                  exact Or.inr (Or.inr (Or.inl (by trivial)))
              | true =>
                  rw [if_neg (by simp [hv])]
                  have hseen : (st.nonce_registry.has_seen c.now e.nonce).1 = true := by
                    rw [hN2]
                    exact mem_unexpired_has_seen hmem hlt
                  rw [if_pos (by simp [hseen])]
                  exact Or.inr (Or.inr (Or.inr (by trivial)))

theorem firstFailingCode_ne_unsupported (S : SigScheme) (cfg : InboxConfig)
    (st : InboxState) (now : Int) (raw : RawEnvelope) :
    firstFailingCode S cfg st now raw ≠ some ErrorCode.UNSUPPORTED_VERSION := by
  intro h
  cases hp : parseEnvelope raw with
  | error m =>
      simp only [firstFailingCode, hp] at h
      cases h
  | ok e =>
      simp only [firstFailingCode, hp] at h
      rw [if_neg (by simp [(parseEnvelope_ok_facts hp).1])] at h
      iterate 12 (all_goals (try split at h))
      all_goals simp at h

/-- C10: `process_envelope` never returns an UNSUPPORTED_VERSION receipt: the
Envelope model's `version` field admits only the literal "1", so an input
with any other version is already rejected at the parse gate as
INVALID_FORMAT and the step-2 version branch is unreachable. -/
theorem unsupported_version_unreachable (S : SigScheme)
    (executor : Envelope → ExecutionResult) (cfg : InboxConfig) (st : InboxState)
    (now : Int) (receipt_id : String) (raw : RawEnvelope) :
    (processEnvelope S executor cfg st now receipt_id raw).1.errorCode
        ≠ some ErrorCode.UNSUPPORTED_VERSION
    ∧ (raw.version ≠ some "1" →
        (processEnvelope S executor cfg st now receipt_id raw).1.errorCode
          = some ErrorCode.INVALID_FORMAT) := by
  cases hE : processEnvelope S executor cfg st now receipt_id raw with
  | mk rcpt st' =>
    have spec1 := (processEnvelope_spec S executor cfg st now receipt_id raw
      rcpt st' hE).1
    constructor
    · rw [spec1]
      exact firstFailingCode_ne_unsupported S cfg st now raw
    · intro hne
      rw [spec1]
      cases hp : parseEnvelope raw with
      | error m => simp [firstFailingCode, hp]
      | ok e =>
          have hfacts := parseEnvelope_ok_facts hp
          exact absurd (hfacts.2.2.trans (by rw [hfacts.1])) hne

/-! ## Concrete instances used by the witnesses and counterexamples below -/

/-- A scheme whose `verify` always succeeds: it stands for runs in which the
submitted envelopes are correctly signed. -/
def okScheme : SigScheme := ⟨fun _ _ => [], fun _ _ _ => true, id⟩

/-- An executor that reports failure, to exercise claim C9. -/
def okExec : Envelope → ExecutionResult :=
  fun _ => { success := false, executor_name := "noop", error_message := some "boom" }

def wSender : String :=
  "aaaaaaaaaaaaaaaaaaaaaaaaaaaaaaaaaaaaaaaaaaaaaaaaaaaaaaaaaaaaaaaa"

def wRecip : String :=
  "bbbbbbbbbbbbbbbbbbbbbbbbbbbbbbbbbbbbbbbbbbbbbbbbbbbbbbbbbbbbbbbb"

def wEntry : TrustEntry :=
  { public_key := wSender, name := "w", added_at := "t",
    policy := { allowed_scopes := ["*"] } }

def wCfg : InboxConfig := ⟨wRecip, [(wSender, wEntry)]⟩

def wState : InboxState := ⟨⟨[], 300, 0⟩, []⟩

def wUuid : String := "00000000-0000-0000-0000-000000000000"

def wNonce : String := "AAAAAAAAAAAAAAAAAAAAAA=="

def rawA : RawEnvelope :=
  { version := some "1", envelope_id := some wUuid, sender := some wSender,
    recipient := some wRecip, timestamp := some "1970-01-01T00:00:00Z",
    expires_at := some "1970-01-01T00:05:50Z", nonce := some wNonce,
    scope := some "test", payload := some { prompt := some "Hello" },
    signature := some "AAAA" }

def envA : Envelope :=
  { version := "1", envelope_id := wUuid, sender := wSender, recipient := wRecip,
    timestamp := "1970-01-01T00:00:00Z", expires_at := "1970-01-01T00:05:50Z",
    nonce := wNonce, scope := "test", payload := { prompt := "Hello" },
    signature := "AAAA" }

set_option maxRecDepth 100000 in
theorem parse_rawA : parseEnvelope rawA = .ok envA := by rfl

/-- Same nonce as `rawA`, later expiry. -/
def rawB : RawEnvelope := { rawA with expires_at := some "1970-01-01T00:20:00Z" }

set_option maxRecDepth 100000 in
/-- C1 counterexample: submitted at `now = 10`, `rawA` (nonce N, expiry 350)
is accepted and N committed; at `now = 400` the opportunistic GC sweep
(400 - 0 ≥ cleanup_interval = 300) collects the expired entry, and `rawB` —
carrying the SAME nonce N with a later expiry — is accepted again: two
SuccessReceipts for one nonce, and the second attempt is not rejected with
REPLAY_DETECTED. -/
theorem nonce_reaccepted_after_gc_counterexample :
    countAcceptedNonce okScheme okExec wCfg wNonce
      [⟨10, "r1", rawA⟩, ⟨400, "r2", rawB⟩] wState = 2 := by decide

set_option maxRecDepth 100000 in
/-- Witness for C1 (amended): two calls inside the expiry window; the first
is accepted, the replayed second is not, so the count is at most one. -/
theorem nonce_at_most_one_accepted_witness :
    countAcceptedNonce okScheme okExec wCfg wNonce
      [⟨10, "r1", rawA⟩, ⟨340, "r2", rawA⟩] wState ≤ 1 := by
  refine (nonce_at_most_one_accepted okScheme okExec wCfg wNonce).1 _ wState ?_
  intro c hc e he hn t ht c2 hc2
  simp only [List.mem_cons, List.not_mem_nil, or_false] at hc hc2
  have hexp : isoParseZ e.expires_at = some 350 := by
    rcases hc with rfl | rfl <;>
      (injection parse_rawA.symm.trans he with hee
       subst hee
       rfl)
  have ht350 : t = 350 := by
    injection hexp.symm.trans ht with h2
    exact h2.symm
  subst ht350
  rcases hc2 with rfl | rfl <;> decide

/-- A valid but foreign recipient key: the envelope parses, then fails the
recipient gate. -/
def rawW : RawEnvelope :=
  { rawA with
    recipient :=
      some "cccccccccccccccccccccccccccccccccccccccccccccccccccccccccccccccc" }

set_option maxRecDepth 100000 in
/-- Witness for C2: an envelope addressed to a different inbox fails first at
the recipient gate (WRONG_RECIPIENT), and the rejection leaves the whole
state untouched. -/
theorem pipeline_first_failing_gate_witness :
    firstFailingCode okScheme wCfg wState 10 rawW = some ErrorCode.WRONG_RECIPIENT
    ∧ (processEnvelope okScheme okExec wCfg wState 10 "r1" rawW).2 = wState := by
  refine ⟨by decide, ?_⟩
  exact (pipeline_first_failing_gate okScheme okExec wCfg wState 10 "r1" rawW).2.2.1
    ErrorCode.WRONG_RECIPIENT (by decide) (Or.inr (Or.inr (Or.inl rfl)))

/-- The trust entry of `wSender` with the policy limit set exactly to the
re-serialized length of `envA` (540 bytes). -/
def wEntry5 : TrustEntry :=
  { public_key := wSender, name := "w", added_at := "t",
    policy := { allowed_scopes := ["*"], max_envelope_size := 540 } }

def cfg5 : InboxConfig := ⟨wRecip, [(wSender, wEntry5)]⟩

set_option maxRecDepth 100000 in
/-- C5 counterexample: the size gate reads `envelope.size_bytes` — the length
of the RE-serialized envelope, a function of the parsed value only — never
the received byte form, which `process_envelope` is not given.  With
`max_envelope_size = 540` and `envA`'s re-serialization exactly 540 bytes,
the pipeline accepts, even though any received serialization of the same
dictionary one byte longer (e.g. one extra inter-token space, 541 bytes)
would have to be rejected were the gate applied to the form received. -/
theorem size_gate_received_form_counterexample :
    (processEnvelope okScheme okExec cfg5 wState 10 "r1" rawA).1.isAccepted = true
    ∧ envA.size_bytes = 540
    ∧ sizeGateSpec (envA.size_bytes + 1) wEntry5.policy.max_envelope_size = false :=
  ⟨by decide, by decide, by decide⟩

set_option maxRecDepth 100000 in
/-- Witness for C5 (amended): at the concrete envelope `envA` under the
540-byte policy, the receipt is not SIZE_EXCEEDED, exactly because the
re-serialized length does not exceed the limit. -/
theorem size_gate_uses_reserialized_length_witness :
    ((processEnvelope okScheme okExec cfg5 wState 10 "r1" rawA).1.errorCode
        = some ErrorCode.SIZE_EXCEEDED ↔ (540 : Nat) < envA.size_bytes) :=
  size_gate_uses_reserialized_length okScheme okExec cfg5 wState 10 "r1" rawA envA
    wEntry5 parse_rawA (by decide) (by decide) (List.replicate 32 170) (by decide)
    rfl (by decide) rfl (by decide)

set_option maxRecDepth 100000 in
/-- Witness for C9: `okExec` reports `success = false` with an error message,
yet the receipt for the admitted `rawA` is the success form. -/
theorem executor_failure_does_not_reject_witness :
    (processEnvelope okScheme okExec wCfg wState 10 "r1" rawA).1
      = Receipt.success envA.envelope_id (receivedAtString 10) "r1"
          (okExec envA).executor_name
    ∧ (okExec envA).success = false :=
  ⟨executor_failure_does_not_reject okScheme wCfg wState 10 "r1" rawA envA
      parse_rawA (by decide) okExec, rfl⟩

/-- `rawA` with an unsupported version string. -/
def raw2 : RawEnvelope := { rawA with version := some "2" }

set_option maxRecDepth 100000 in
/-- Witness for C10: the version-2 envelope is rejected as INVALID_FORMAT at
the parse gate, never as UNSUPPORTED_VERSION. -/
theorem unsupported_version_unreachable_witness :
    (processEnvelope okScheme okExec wCfg wState 10 "r1" raw2).1.errorCode
        ≠ some ErrorCode.UNSUPPORTED_VERSION
    ∧ (processEnvelope okScheme okExec wCfg wState 10 "r1" raw2).1.errorCode
        = some ErrorCode.INVALID_FORMAT :=
  ⟨(unsupported_version_unreachable okScheme okExec wCfg wState 10 "r1" raw2).1,
   (unsupported_version_unreachable okScheme okExec wCfg wState 10 "r1" raw2).2
     (by decide)⟩
